import Mathlib

/-!
Verification of the autotune status route, the transcript store, the
agent-turn endpoint, and the promotion gate of the selfevolvingagents
repository, against a shallow embedding of the TypeScript source.
-/

/-! ## JSON values

Model of the values produced by `JSON.parse`: strings, finite numbers
(JSON numbers are finite; we abstract IEEE doubles as rationals),
booleans, null, arrays and objects.  Objects are ordered field lists;
values produced by `JSON.parse` never repeat a key. -/

inductive JVal where
  | str (s : String)
  | num (q : Rat)
  | bool (b : Bool)
  | null
  | arr (elems : List JVal)
  | obj (fields : List (String × JVal))

/-- Object field lists, as used for the `merged` object in the route. -/
abbrev JObj := List (String × JVal)

/-- JavaScript truthiness of a parsed JSON value (NaN cannot occur). -/
def JVal.truthy : JVal → Bool
  | .str s => s ≠ ""
  | .num q => q ≠ 0
  | .bool b => b
  | .null => false
  | .arr _ => true
  | .obj _ => true

/-- Test for the JSON value null (the right operand class of `??`). -/
def JVal.isNull : JVal → Bool
  | .null => true
  | _ => false

/-- Property lookup on an object field list (JS objects keep keys unique). -/
def getProp : JObj → String → Option JVal
  | [], _ => none
  | p :: o, k => if p.1 = k then some p.2 else getProp o k

/-- The JS `k in o` test: key presence regardless of value. -/
def hasProp (o : JObj) (k : String) : Bool :=
  (getProp o k).isSome

/-- Property assignment `o.k = v`: replace in place when present, else append. -/
def setProp (o : JObj) (k : String) (v : JVal) : JObj :=
  if hasProp o k then
    o.map (fun p => if p.1 = k then (k, v) else p)
  else
    o ++ [(k, v)]

/-- Property access `v.k` on an arbitrary value: only objects have fields
(accessing a field of a number, string, array, bool or null yields
undefined for the fields this code reads). -/
def JVal.getField : JVal → String → Option JVal
  | .obj fields, k => getProp fields k
  | _, _ => none

/-- Fields contributed by spreading a value into an object literal
(`\x7b...v\x7d`): objects contribute their fields, arrays and strings
contribute index-keyed entries, primitives contribute nothing. -/
def JVal.spreadFields : JVal → JObj
  | .obj fields => fields
  | .arr xs => xs.enum.map (fun p => (toString p.1, p.2))
  | .str s => s.toList.enum.map (fun p => (toString p.1, .str (String.singleton p.2)))
  | _ => []

/-- The length used by `Array.isArray(v) ? v : []` followed by `.length`. -/
def JVal.arrayLen : JVal → Rat
  | .arr xs => xs.length
  | _ => 0

/-- Truth of `Array.isArray(v) && v.length > 0` for an optional property. -/
def isNonEmptyArray : Option JVal → Bool
  | some (.arr (_ :: _)) => true
  | _ => false

/-! ## Filesystem and environment model

A file either holds bytes that parse as JSON with a given value, or
bytes that fail to parse (`garbage`).  Directories are listings of
entries with an is-directory flag, `none` when `readdir` rejects. -/

inductive FileData where
  | ofJson (v : JVal)
  | garbage

structure DirEntry where
  name : String
  isDir : Bool

structure FS where
  files : String → Option FileData
  dirs : String → Option (List DirEntry)

/-- Environment for the status route: `AUTOTUNE_STATUS_FILE`,
`AUTOTUNE_RUNS_DIR`, and the working directory `process.cwd()`. -/
structure Env where
  statusFile : Option String
  runsDir : Option String
  cwd : String

/-- Model of `path.join(a, b)` for a relative second segment. -/
def pathJoin (a b : String) : String := a ++ "/" ++ b

/-- Result of the source function `readJson`: the parsed value when the
file exists and its bytes parse, otherwise null (the catch branch). -/
def readJsonRes (fs : FS) (p : String) : Option JVal :=
  match fs.files p with
  | some (.ofJson v) => some v
  | _ => none

/-- State-threaded `readJson`: a read leaves the filesystem unchanged. -/
def readJsonM (p : String) (fs : FS) : Option JVal × FS :=
  (readJsonRes fs p, fs)

/-- State-threaded `fs.readdir`: a read leaves the filesystem unchanged. -/
def readdirM (p : String) (fs : FS) : Option (List DirEntry) × FS :=
  (fs.dirs p, fs)

/-! ## The status route (src/app/api/autotune/status/route.ts) -/

/-- The source function `defaultStatus`. -/
def defaultStatus : JVal :=
  .obj [("phase", .str "idle"),
        ("reason", .str "No autotune status file found yet."),
        ("new_trace_count", .num 0),
        ("pending_trace_count", .num 0),
        ("variants", .arr []),
        ("variant_runs", .arr []),
        ("winner", .null),
        ("promoted", .null)]

/-- The source function `latestRunDir` applied to a directory listing:
keep directories, sort names ascending, reverse, take the first, join
with the root; null when the listing is empty or `readdir` rejected. -/
def latestRunDirCore (runsRoot : String) (listing : Option (List DirEntry)) :
    Option String :=
  match listing with
  | none => none
  | some entries =>
    let dirs := (((entries.filter (fun e => e.isDir)).map (fun e => e.name)).insertionSort
      (fun a b => a ≤ b)).reverse
    match dirs with
    | [] => none
    | d :: _ => some (pathJoin runsRoot d)

/-- The `statusPath` let binding of `GET` (env var with fallback). -/
def statusPathOf (env : Env) : String :=
  env.statusFile.getD (pathJoin env.cwd "artifacts/autotune/dashboard_status.json")

/-- The `runsRoot` let binding of `GET` (env var with fallback). -/
def runsRootOf (env : Env) : String :=
  env.runsDir.getD (pathJoin env.cwd "artifacts/autotune/runs")

/-- The `status` let binding of `GET`: `readJson(statusPath) ?? defaultStatus()`
(readJson yields null both for a missing or unparsable file and for a
file containing JSON null, and `??` replaces null by the default). -/
def resolvedStatus (fs : FS) (env : Env) : JVal :=
  match readJsonRes fs (statusPathOf env) with
  | some v => if v.isNull then defaultStatus else v
  | none => defaultStatus

/-- The `if (traces && ...)` block of `GET`. -/
def applyTraces (merged : JObj) (traces : Option JVal) : JObj :=
  match traces with
  | some tv =>
    if tv.truthy && !(hasProp merged "new_trace_count") then
      setProp merged "new_trace_count" (.num tv.arrayLen)
    else merged
  | none => merged

/-- The value `Array.isArray(x) ? x : []` for an optional property. -/
def arrOrEmpty : Option JVal → JVal
  | some (.arr xs) => .arr xs
  | _ => .arr []

/-- The `merged.variants` assignment block of `GET`. -/
def findingsVariantsStep (fv : JVal) (merged : JObj) : JObj :=
  if !(isNonEmptyArray (getProp merged "variants")) then
    setProp merged "variants" (arrOrEmpty (fv.getField "variants"))
  else merged

/-- The `merged.findings` assignment block of `GET`. -/
def findingsFindingsStep (fv : JVal) (merged : JObj) : JObj :=
  if !(isNonEmptyArray (getProp merged "findings")) then
    setProp merged "findings" (arrOrEmpty (fv.getField "findings"))
  else merged

/-- The two `if (findings && ...)` blocks of `GET`. -/
def applyFindings (merged : JObj) (findings : Option JVal) : JObj :=
  match findings with
  | some fv =>
    if fv.truthy then findingsFindingsStep fv (findingsVariantsStep fv merged)
    else merged
  | none => merged

/-- Nullish coalescing `v ?? null` for an optional property. -/
def coalesceNull : Option JVal → JVal
  | some v => v
  | none => .null

/-- Truth of `p == null` (undefined or null) for an optional property. -/
def isNullish : Option JVal → Bool
  | none => true
  | some .null => true
  | some _ => false

/-- The `merged.variant_runs` assignment block of `GET`. -/
def decisionVariantRunsStep (dv : JVal) (merged : JObj) : JObj :=
  if !(isNonEmptyArray (getProp merged "variant_runs")) then
    setProp merged "variant_runs" (arrOrEmpty (dv.getField "variant_runs"))
  else merged

/-- The `merged.winner` assignment block of `GET`. -/
def decisionWinnerStep (dv : JVal) (merged : JObj) : JObj :=
  if isNullish (getProp merged "winner") then
    setProp merged "winner" (coalesceNull (dv.getField "winner"))
  else merged

/-- The `merged.promoted` assignment block of `GET`. -/
def decisionPromotedStep (dv : JVal) (merged : JObj) : JObj :=
  if isNullish (getProp merged "promoted") then
    setProp merged "promoted" (coalesceNull (dv.getField "promoted"))
  else merged

/-- The `merged.reason` assignment block of `GET` (assigning
`merged.reason = merged.reason` when the decision carries no string
reason creates a key holding undefined, which the JSON serialization
of the response drops again; it is modelled as a no-op). -/
def decisionReasonStep (dv : JVal) (merged : JObj) : JObj :=
  match getProp merged "reason" with
  | some (.str _) => merged
  | _ =>
    match dv.getField "reason" with
    | some (.str s) => setProp merged "reason" (.str s)
    | _ => merged

/-- The `if (decision)` block of `GET`. -/
def applyDecision (merged : JObj) (decision : Option JVal) : JObj :=
  match decision with
  | some dv =>
    if dv.truthy then
      decisionReasonStep dv (decisionPromotedStep dv
        (decisionWinnerStep dv (decisionVariantRunsStep dv merged)))
    else merged
  | none => merged

/-- The `runDir` let binding of `GET`:
`(status.run_dir as string | undefined) ?? (await latestRunDir(runsRoot))`.
The readdir happens only when the status value is nullish there. -/
def runDirResolveM (status : JVal) (runsRoot : String) (fs : FS) :
    Option JVal × FS :=
  match status.getField "run_dir" with
  | some v =>
    if v.isNull then
      let (listing, fs1) := readdirM runsRoot fs
      ((latestRunDirCore runsRoot listing).map .str, fs1)
    else (some v, fs)
  | none =>
    let (listing, fs1) := readdirM runsRoot fs
    ((latestRunDirCore runsRoot listing).map .str, fs1)

/-- The exported `GET` handler, state-threaded through every filesystem
operation; `now` is the string `new Date().toISOString()` evaluates to.
The value is `none` when the handler throws: `path.join` raises a
TypeError when `runDir` is a truthy non-string. -/
def statusGETm (env : Env) (now : String) (fs : FS) : Option JVal × FS :=
  let statusPath := statusPathOf env
  let runsRoot := runsRootOf env
  let (statusRes, fs1) := readJsonM statusPath fs
  let status :=
    match statusRes with
    | some v => if v.isNull then defaultStatus else v
    | none => defaultStatus
  let (runDirV, fs2) := runDirResolveM status runsRoot fs1
  match runDirV with
  | none => (some (.obj (setProp status.spreadFields "server_time" (.str now))), fs2)
  | some rv =>
    if rv.truthy then
      match rv with
      | .str rd =>
        let (traces, fs3) := readJsonM (pathJoin rd "source_traces.json") fs2
        let (findings, fs4) := readJsonM (pathJoin rd "findings_and_variants.json") fs3
        let (decision, fs5) := readJsonM (pathJoin rd "promotion_decision.json") fs4
        let merged :=
          setProp (setProp status.spreadFields "run_dir" (.str rd))
            "server_time" (.str now)
        let merged := applyTraces merged traces
        let merged := applyFindings merged findings
        let merged := applyDecision merged decision
        (some (.obj merged), fs5)
      | _ => (none, fs2)
    else (some (.obj (setProp status.spreadFields "server_time" (.str now))), fs2)

/-- The response value of the `GET` handler. -/
def statusGET (env : Env) (now : String) (fs : FS) : Option JVal :=
  (statusGETm env now fs).1

/-! ## Object lemmas -/

theorem getProp_append (o o2 : JObj) (k : String) :
    getProp (o ++ o2) k = (getProp o k).or (getProp o2 k) := by
  induction o with
  | nil => simp [getProp]
  | cons p os ih =>
    by_cases hp : p.1 = k
    · simp [getProp, hp]
    · simp [getProp, hp, ih]

theorem getProp_map_update_self (o : JObj) (k : String) (v : JVal)
    (h : hasProp o k = true) :
    getProp (o.map (fun p => if p.1 = k then (k, v) else p)) k = some v := by
  induction o with
  | nil => simp [hasProp, getProp] at h
  | cons p os ih =>
    by_cases hp : p.1 = k
    · simp [getProp, hp]
    · have h2 : hasProp os k = true := by
        simpa [hasProp, getProp, hp] using h
      simp [getProp, hp, ih h2]

theorem getProp_map_update_ne (o : JObj) (k : String) (v : JVal)
    (k' : String) (h : k' ≠ k) :
    getProp (o.map (fun p => if p.1 = k then (k, v) else p)) k'
      = getProp o k' := by
  induction o with
  | nil => rfl
  | cons p os ih =>
    simp only [List.map_cons]
    by_cases hp : p.1 = k
    · rw [if_pos hp]
      have hk : ¬(k = k') := fun hh => h hh.symm
      have hpk : ¬(p.1 = k') := by rw [hp]; exact hk
      simp only [getProp]
      rw [if_neg hk, if_neg hpk]
      exact ih
    · rw [if_neg hp]
      simp only [getProp]
      by_cases hq : p.1 = k'
      · rw [if_pos hq, if_pos hq]
      · rw [if_neg hq, if_neg hq]; exact ih

theorem getProp_none_of_not_hasProp (o : JObj) (k : String)
    (h : hasProp o k = false) : getProp o k = none := by
  unfold hasProp at h
  cases hg : getProp o k with
  | none => rfl
  | some v => rw [hg] at h; simp at h

theorem getProp_setProp_self (o : JObj) (k : String) (v : JVal) :
    getProp (setProp o k v) k = some v := by
  unfold setProp
  by_cases h : hasProp o k = true
  · simp only [h, if_true]
    exact getProp_map_update_self o k v h
  · have hf : hasProp o k = false := by simpa using h
    simp only [hf, Bool.false_eq_true, if_false]
    rw [getProp_append, getProp_none_of_not_hasProp o k hf]
    simp [getProp]

theorem getProp_setProp_ne (o : JObj) (k : String) (v : JVal)
    (k' : String) (h : k' ≠ k) :
    getProp (setProp o k v) k' = getProp o k' := by
  unfold setProp
  by_cases hk : hasProp o k = true
  · simp only [hk, if_true]
    exact getProp_map_update_ne o k v k' h
  · have hf : hasProp o k = false := by simpa using hk
    simp only [hf, Bool.false_eq_true, if_false]
    rw [getProp_append]
    have hkk : ¬(k = k') := fun hh => h hh.symm
    have : getProp [(k, v)] k' = none := by
      simp [getProp, hkk]
    rw [this]
    cases getProp o k' <;> rfl

/-! ## Merge-step lemmas -/

theorem getProp_applyTraces_ne (m : JObj) (a : Option JVal) (k : String)
    (h : k ≠ "new_trace_count") :
    getProp (applyTraces m a) k = getProp m k := by
  unfold applyTraces
  cases a with
  | none => rfl
  | some tv =>
    dsimp only
    by_cases hc : (tv.truthy && !(hasProp m "new_trace_count")) = true
    · simp only [hc, if_true]
      exact getProp_setProp_ne m _ _ k h
    · rw [if_neg hc]

theorem getProp_findingsVariantsStep_ne (fv : JVal) (m : JObj) (k : String)
    (h : k ≠ "variants") :
    getProp (findingsVariantsStep fv m) k = getProp m k := by
  unfold findingsVariantsStep
  split
  · exact getProp_setProp_ne _ _ _ k h
  · rfl

theorem getProp_findingsFindingsStep_ne (fv : JVal) (m : JObj) (k : String)
    (h : k ≠ "findings") :
    getProp (findingsFindingsStep fv m) k = getProp m k := by
  unfold findingsFindingsStep
  split
  · exact getProp_setProp_ne _ _ _ k h
  · rfl

theorem getProp_decisionVariantRunsStep_ne (dv : JVal) (m : JObj) (k : String)
    (h : k ≠ "variant_runs") :
    getProp (decisionVariantRunsStep dv m) k = getProp m k := by
  unfold decisionVariantRunsStep
  split
  · exact getProp_setProp_ne _ _ _ k h
  · rfl

theorem getProp_decisionWinnerStep_ne (dv : JVal) (m : JObj) (k : String)
    (h : k ≠ "winner") :
    getProp (decisionWinnerStep dv m) k = getProp m k := by
  unfold decisionWinnerStep
  split
  · exact getProp_setProp_ne _ _ _ k h
  · rfl

theorem getProp_decisionPromotedStep_ne (dv : JVal) (m : JObj) (k : String)
    (h : k ≠ "promoted") :
    getProp (decisionPromotedStep dv m) k = getProp m k := by
  unfold decisionPromotedStep
  split
  · exact getProp_setProp_ne _ _ _ k h
  · rfl

theorem getProp_decisionReasonStep_ne (dv : JVal) (m : JObj) (k : String)
    (h : k ≠ "reason") :
    getProp (decisionReasonStep dv m) k = getProp m k := by
  unfold decisionReasonStep
  split
  · rfl
  · split
    · exact getProp_setProp_ne _ _ _ k h
    · rfl

theorem getProp_applyFindings_ne (m : JObj) (a : Option JVal) (k : String)
    (h1 : k ≠ "variants") (h2 : k ≠ "findings") :
    getProp (applyFindings m a) k = getProp m k := by
  unfold applyFindings
  cases a with
  | none => rfl
  | some fv =>
    dsimp only
    by_cases ht : fv.truthy = true
    · rw [if_pos ht, getProp_findingsFindingsStep_ne _ _ k h2,
        getProp_findingsVariantsStep_ne _ _ k h1]
    · rw [if_neg ht]

theorem getProp_applyDecision_ne (m : JObj) (a : Option JVal) (k : String)
    (h1 : k ≠ "variant_runs") (h2 : k ≠ "winner") (h3 : k ≠ "promoted")
    (h4 : k ≠ "reason") :
    getProp (applyDecision m a) k = getProp m k := by
  unfold applyDecision
  cases a with
  | none => rfl
  | some dv =>
    dsimp only
    by_cases ht : dv.truthy = true
    · rw [if_pos ht, getProp_decisionReasonStep_ne _ _ k h4,
        getProp_decisionPromotedStep_ne _ _ k h3,
        getProp_decisionWinnerStep_ne _ _ k h2,
        getProp_decisionVariantRunsStep_ne _ _ k h1]
    · rw [if_neg ht]

theorem getProp_applyTraces_count (m : JObj) (tv : JVal) :
    getProp (applyTraces m (some tv)) "new_trace_count" =
      (if (tv.truthy && !(hasProp m "new_trace_count")) = true
       then some (.num tv.arrayLen) else getProp m "new_trace_count") := by
  unfold applyTraces
  dsimp only
  by_cases hc : (tv.truthy && !(hasProp m "new_trace_count")) = true
  · rw [if_pos hc, if_pos hc, getProp_setProp_self]
  · rw [if_neg hc, if_neg hc]

theorem getProp_findingsVariantsStep_self (fv : JVal) (m : JObj) :
    getProp (findingsVariantsStep fv m) "variants" =
      (if isNonEmptyArray (getProp m "variants") = true
       then getProp m "variants"
       else some (arrOrEmpty (fv.getField "variants"))) := by
  unfold findingsVariantsStep
  by_cases hv : isNonEmptyArray (getProp m "variants") = true
  · rw [if_pos hv, if_neg (show ¬((!isNonEmptyArray (getProp m "variants")) = true) by
      rw [hv]; exact Bool.false_ne_true)]
  · have hb : isNonEmptyArray (getProp m "variants") = false := Bool.eq_false_iff.mpr hv
    rw [if_neg hv, if_pos (show (!isNonEmptyArray (getProp m "variants")) = true by
      rw [hb]; rfl), getProp_setProp_self]

theorem getProp_findingsFindingsStep_self (fv : JVal) (m : JObj) :
    getProp (findingsFindingsStep fv m) "findings" =
      (if isNonEmptyArray (getProp m "findings") = true
       then getProp m "findings"
       else some (arrOrEmpty (fv.getField "findings"))) := by
  unfold findingsFindingsStep
  by_cases hv : isNonEmptyArray (getProp m "findings") = true
  · rw [if_pos hv, if_neg (show ¬((!isNonEmptyArray (getProp m "findings")) = true) by
      rw [hv]; exact Bool.false_ne_true)]
  · have hb : isNonEmptyArray (getProp m "findings") = false := Bool.eq_false_iff.mpr hv
    rw [if_neg hv, if_pos (show (!isNonEmptyArray (getProp m "findings")) = true by
      rw [hb]; rfl), getProp_setProp_self]

theorem getProp_decisionVariantRunsStep_self (dv : JVal) (m : JObj) :
    getProp (decisionVariantRunsStep dv m) "variant_runs" =
      (if isNonEmptyArray (getProp m "variant_runs") = true
       then getProp m "variant_runs"
       else some (arrOrEmpty (dv.getField "variant_runs"))) := by
  unfold decisionVariantRunsStep
  by_cases hv : isNonEmptyArray (getProp m "variant_runs") = true
  · rw [if_pos hv, if_neg (show ¬((!isNonEmptyArray (getProp m "variant_runs")) = true) by
      rw [hv]; exact Bool.false_ne_true)]
  · have hb : isNonEmptyArray (getProp m "variant_runs") = false := Bool.eq_false_iff.mpr hv
    rw [if_neg hv, if_pos (show (!isNonEmptyArray (getProp m "variant_runs")) = true by
      rw [hb]; rfl), getProp_setProp_self]

theorem getProp_decisionWinnerStep_self (dv : JVal) (m : JObj) :
    getProp (decisionWinnerStep dv m) "winner" =
      (if isNullish (getProp m "winner") = true
       then some (coalesceNull (dv.getField "winner"))
       else getProp m "winner") := by
  unfold decisionWinnerStep
  by_cases hv : isNullish (getProp m "winner") = true
  · rw [if_pos hv, if_pos hv, getProp_setProp_self]
  · rw [if_neg hv, if_neg hv]

theorem getProp_decisionPromotedStep_self (dv : JVal) (m : JObj) :
    getProp (decisionPromotedStep dv m) "promoted" =
      (if isNullish (getProp m "promoted") = true
       then some (coalesceNull (dv.getField "promoted"))
       else getProp m "promoted") := by
  unfold decisionPromotedStep
  by_cases hv : isNullish (getProp m "promoted") = true
  · rw [if_pos hv, if_pos hv, getProp_setProp_self]
  · rw [if_neg hv, if_neg hv]

/-- Value of the reason field after the `merged.reason` block, as a
function of the status reason and the decision reason. -/
def reasonResult (o d : Option JVal) : Option JVal :=
  match o with
  | some (.str s) => some (.str s)
  | _ =>
    match d with
    | some (.str s) => some (.str s)
    | _ => o

theorem getProp_decisionReasonStep_self (dv : JVal) (m : JObj) :
    getProp (decisionReasonStep dv m) "reason" =
      reasonResult (getProp m "reason") (dv.getField "reason") := by
  unfold decisionReasonStep reasonResult
  cases hgm : getProp m "reason" with
  | none =>
    cases hgd : dv.getField "reason" with
    | none => dsimp only; exact hgm
    | some w =>
      cases w <;> dsimp only <;> first
        | exact hgm
        | exact getProp_setProp_self m "reason" _
  | some v =>
    cases v with
    | str s => dsimp only; exact hgm
    | num q =>
      cases hgd : dv.getField "reason" with
      | none => dsimp only; exact hgm
      | some w =>
        cases w <;> dsimp only <;> first
          | exact hgm
          | exact getProp_setProp_self m "reason" _
    | bool b =>
      cases hgd : dv.getField "reason" with
      | none => dsimp only; exact hgm
      | some w =>
        cases w <;> dsimp only <;> first
          | exact hgm
          | exact getProp_setProp_self m "reason" _
    | null =>
      cases hgd : dv.getField "reason" with
      | none => dsimp only; exact hgm
      | some w =>
        cases w <;> dsimp only <;> first
          | exact hgm
          | exact getProp_setProp_self m "reason" _
    | arr xs =>
      cases hgd : dv.getField "reason" with
      | none => dsimp only; exact hgm
      | some w =>
        cases w <;> dsimp only <;> first
          | exact hgm
          | exact getProp_setProp_self m "reason" _
    | obj fields =>
      cases hgd : dv.getField "reason" with
      | none => dsimp only; exact hgm
      | some w =>
        cases w <;> dsimp only <;> first
          | exact hgm
          | exact getProp_setProp_self m "reason" _

theorem getProp_applyFindings_variants (m : JObj) (fv : JVal)
    (ht : fv.truthy = true) :
    getProp (applyFindings m (some fv)) "variants" =
      (if isNonEmptyArray (getProp m "variants") = true
       then getProp m "variants"
       else some (arrOrEmpty (fv.getField "variants"))) := by
  unfold applyFindings
  dsimp only
  rw [if_pos ht, getProp_findingsFindingsStep_ne _ _ _ (by decide),
    getProp_findingsVariantsStep_self]

theorem getProp_applyFindings_findings (m : JObj) (fv : JVal)
    (ht : fv.truthy = true) :
    getProp (applyFindings m (some fv)) "findings" =
      (if isNonEmptyArray (getProp m "findings") = true
       then getProp m "findings"
       else some (arrOrEmpty (fv.getField "findings"))) := by
  unfold applyFindings
  dsimp only
  rw [if_pos ht, getProp_findingsFindingsStep_self,
    getProp_findingsVariantsStep_ne _ _ _ (by decide)]

theorem getProp_applyDecision_variant_runs (m : JObj) (dv : JVal)
    (ht : dv.truthy = true) :
    getProp (applyDecision m (some dv)) "variant_runs" =
      (if isNonEmptyArray (getProp m "variant_runs") = true
       then getProp m "variant_runs"
       else some (arrOrEmpty (dv.getField "variant_runs"))) := by
  unfold applyDecision
  dsimp only
  rw [if_pos ht, getProp_decisionReasonStep_ne _ _ _ (by decide),
    getProp_decisionPromotedStep_ne _ _ _ (by decide),
    getProp_decisionWinnerStep_ne _ _ _ (by decide),
    getProp_decisionVariantRunsStep_self]

theorem getProp_applyDecision_winner (m : JObj) (dv : JVal)
    (ht : dv.truthy = true) :
    getProp (applyDecision m (some dv)) "winner" =
      (if isNullish (getProp m "winner") = true
       then some (coalesceNull (dv.getField "winner"))
       else getProp m "winner") := by
  unfold applyDecision
  dsimp only
  rw [if_pos ht, getProp_decisionReasonStep_ne _ _ _ (by decide),
    getProp_decisionPromotedStep_ne _ _ _ (by decide),
    getProp_decisionWinnerStep_self,
    getProp_decisionVariantRunsStep_ne _ _ _ (by decide)]

theorem getProp_applyDecision_promoted (m : JObj) (dv : JVal)
    (ht : dv.truthy = true) :
    getProp (applyDecision m (some dv)) "promoted" =
      (if isNullish (getProp m "promoted") = true
       then some (coalesceNull (dv.getField "promoted"))
       else getProp m "promoted") := by
  unfold applyDecision
  dsimp only
  rw [if_pos ht, getProp_decisionReasonStep_ne _ _ _ (by decide),
    getProp_decisionPromotedStep_self,
    getProp_decisionWinnerStep_ne _ _ _ (by decide),
    getProp_decisionVariantRunsStep_ne _ _ _ (by decide)]

theorem getProp_applyDecision_reason (m : JObj) (dv : JVal)
    (ht : dv.truthy = true) :
    getProp (applyDecision m (some dv)) "reason" =
      reasonResult (getProp m "reason") (dv.getField "reason") := by
  unfold applyDecision
  dsimp only
  rw [if_pos ht, getProp_decisionReasonStep_self,
    getProp_decisionPromotedStep_ne _ _ _ (by decide),
    getProp_decisionWinnerStep_ne _ _ _ (by decide),
    getProp_decisionVariantRunsStep_ne _ _ _ (by decide)]

/-! ## Shape of the GET handler -/

/-- Value component of the `runDir` resolution. -/
def runDirResolve (status : JVal) (runsRoot : String) (fs : FS) : Option JVal :=
  (runDirResolveM status runsRoot fs).1

theorem runDirResolveM_snd (s : JVal) (r : String) (fs : FS) :
    (runDirResolveM s r fs).2 = fs := by
  unfold runDirResolveM readdirM
  rcases s.getField "run_dir" with _ | v
  · rfl
  · dsimp only
    split <;> rfl

theorem runDirResolveM_pair (s : JVal) (r : String) (fs : FS) :
    runDirResolveM s r fs = (runDirResolve s r fs, fs) := by
  unfold runDirResolve
  exact Prod.ext rfl (runDirResolveM_snd s r fs)

/-- The object built by the run-artifact merging part of `GET`. -/
def mergedRunObj (status : JVal) (rd now : String) (fs : FS) : JObj :=
  applyDecision (applyFindings (applyTraces
    (setProp (setProp status.spreadFields "run_dir" (.str rd))
      "server_time" (.str now))
    (readJsonRes fs (pathJoin rd "source_traces.json")))
    (readJsonRes fs (pathJoin rd "findings_and_variants.json")))
    (readJsonRes fs (pathJoin rd "promotion_decision.json"))

theorem statusGET_eq (env : Env) (now : String) (fs : FS) :
    statusGET env now fs =
      (match runDirResolve (resolvedStatus fs env) (runsRootOf env) fs with
       | none =>
         some (.obj (setProp (resolvedStatus fs env).spreadFields
           "server_time" (.str now)))
       | some rv =>
         if rv.truthy then
           match rv with
           | .str rd => some (.obj (mergedRunObj (resolvedStatus fs env) rd now fs))
           | _ => none
         else
           some (.obj (setProp (resolvedStatus fs env).spreadFields
             "server_time" (.str now)))) := by
  unfold statusGET statusGETm readJsonM resolvedStatus mergedRunObj
  dsimp only
  rw [runDirResolveM_pair]
  dsimp only
  split
  · rfl
  · split
    · split <;> rfl
    · rfl

theorem statusGETm_snd (env : Env) (now : String) (fs : FS) :
    (statusGETm env now fs).2 = fs := by
  unfold statusGETm readJsonM
  dsimp only
  rw [runDirResolveM_pair]
  dsimp only
  split
  · rfl
  · split
    · split <;> rfl
    · rfl

theorem runDirResolve_cases (s : JVal) (r : String) (fs : FS) (rv : JVal)
    (h : runDirResolve s r fs = some rv) :
    s.getField "run_dir" = some rv ∨ ∃ nm, rv = .str nm := by
  unfold runDirResolve runDirResolveM readdirM at h
  rcases hg : s.getField "run_dir" with _ | v
  · rw [hg] at h
    dsimp only at h
    right
    cases hl : latestRunDirCore r (fs.dirs r) with
    | none => rw [hl] at h; exact Option.noConfusion h
    | some nm =>
      rw [hl] at h
      injection h with h2
      exact ⟨nm, h2.symm⟩
  · rw [hg] at h
    dsimp only at h
    by_cases hn : v.isNull = true
    · rw [if_pos hn] at h
      dsimp only at h
      right
      cases hl : latestRunDirCore r (fs.dirs r) with
      | none => rw [hl] at h; exact Option.noConfusion h
      | some nm =>
        rw [hl] at h
        injection h with h2
        exact ⟨nm, h2.symm⟩
    · rw [if_neg hn] at h
      dsimp only at h
      injection h with h2
      left
      exact congrArg some h2

/-- C3: for every filesystem state, the Status API GET writes nothing —
the filesystem it threads through every operation is returned unchanged
— and every object it returns carries a server_time field holding the
clock value taken during the call. -/
theorem c3_statusGET_readonly_server_time (env : Env) (now : String) (fs : FS) :
    (statusGETm env now fs).2 = fs ∧
    ∀ m, statusGET env now fs = some m →
      m.getField "server_time" = some (.str now) := by
  refine ⟨statusGETm_snd env now fs, ?_⟩
  intro m hm
  rw [statusGET_eq] at hm
  rcases hr : runDirResolve (resolvedStatus fs env) (runsRootOf env) fs with _ | rv
  · rw [hr] at hm
    dsimp only at hm
    cases hm
    simp only [JVal.getField]
    exact getProp_setProp_self _ _ _
  · rw [hr] at hm
    dsimp only at hm
    by_cases htr : rv.truthy = true
    · rw [if_pos htr] at hm
      cases rv with
      | str rd =>
        cases hm
        simp only [JVal.getField, mergedRunObj]
        rw [getProp_applyDecision_ne _ _ _ (by decide) (by decide) (by decide)
            (by decide),
          getProp_applyFindings_ne _ _ _ (by decide) (by decide),
          getProp_applyTraces_ne _ _ _ (by decide)]
        exact getProp_setProp_self _ _ _
      | num q => exact Option.noConfusion hm
      | bool b => exact Option.noConfusion hm
      | null => exact Option.noConfusion hm
      | arr xs => exact Option.noConfusion hm
      | obj fields => exact Option.noConfusion hm
    · rw [if_neg htr] at hm
      cases hm
      simp only [JVal.getField]
      exact getProp_setProp_self _ _ _

def c3fs : FS := ⟨fun _ => none, fun _ => none⟩

def c3env : Env := ⟨none, none, "/app"⟩

/-- Witness for C3 at a concrete empty filesystem. -/
theorem c3_witness :
    (statusGETm c3env "2026-02-03T04:05:06.000Z" c3fs).2 = c3fs ∧
    JVal.getField (JVal.obj [("phase", .str "idle"),
      ("reason", .str "No autotune status file found yet."),
      ("new_trace_count", .num 0), ("pending_trace_count", .num 0),
      ("variants", .arr []), ("variant_runs", .arr []),
      ("winner", .null), ("promoted", .null),
      ("server_time", .str "2026-02-03T04:05:06.000Z")]) "server_time"
      = some (.str "2026-02-03T04:05:06.000Z") :=
  ⟨(c3_statusGET_readonly_server_time c3env "2026-02-03T04:05:06.000Z" c3fs).1,
   (c3_statusGET_readonly_server_time c3env "2026-02-03T04:05:06.000Z" c3fs).2
     _ (by rfl)⟩

/-- C6: the route reads its status snapshot from AUTOTUNE_STATUS_FILE
and its runs root from AUTOTUNE_RUNS_DIR, and for every environment in
which either variable is unset it behaves exactly as with the fallback
paths artifacts/autotune/dashboard_status.json and
artifacts/autotune/runs joined to the working directory. -/
theorem c6_env_path_resolution (cwd now s r : String) (fs : FS) :
    statusPathOf ⟨some s, some r, cwd⟩ = s ∧
    runsRootOf ⟨some s, some r, cwd⟩ = r ∧
    statusPathOf ⟨none, some r, cwd⟩ =
      pathJoin cwd "artifacts/autotune/dashboard_status.json" ∧
    runsRootOf ⟨some s, none, cwd⟩ = pathJoin cwd "artifacts/autotune/runs" ∧
    statusGET ⟨none, none, cwd⟩ now fs =
      statusGET ⟨some (pathJoin cwd "artifacts/autotune/dashboard_status.json"),
        some (pathJoin cwd "artifacts/autotune/runs"), cwd⟩ now fs ∧
    statusGET ⟨none, some r, cwd⟩ now fs =
      statusGET ⟨some (pathJoin cwd "artifacts/autotune/dashboard_status.json"),
        some r, cwd⟩ now fs ∧
    statusGET ⟨some s, none, cwd⟩ now fs =
      statusGET ⟨some s, some (pathJoin cwd "artifacts/autotune/runs"), cwd⟩
        now fs :=
  ⟨rfl, rfl, rfl, rfl, rfl, rfl, rfl⟩

def c10fs : FS :=
  ⟨fun p => if p = "/data/status.json"
      then some (.ofJson (.obj [("run_dir", .num 5)])) else none,
   fun _ => none⟩

def c10env : Env := ⟨some "/data/status.json", some "/data/runs", "/app"⟩

/-- C10 counterexample: on a filesystem whose status file holds the
object with run_dir set to the number 5, path.join receives a truthy
non-string and throws, so the handler raises instead of returning a
JSON object. -/
theorem c10_counterexample :
    statusGET c10env "2026-02-03T00:00:00.000Z" c10fs = none := by rfl

/-- C10 (amended): the GET handler returns a JSON object for every
filesystem state whose resolved status snapshot carries no truthy
non-string run_dir field — in particular for a missing or unreadable
status file, a missing runs directory, and missing run artifacts — and
when the status file does not resolve and no run directory is found the
result is exactly the default status plus server_time. -/
theorem c10_amended_total_default (env : Env) (now : String) (fs : FS)
    (hsafe : ∀ v, (resolvedStatus fs env).getField "run_dir" = some v →
      v.truthy = true → ∃ s, v = .str s) :
    (∃ m, statusGET env now fs = some m) ∧
    (readJsonRes fs (statusPathOf env) = none →
     latestRunDirCore (runsRootOf env) (fs.dirs (runsRootOf env)) = none →
     statusGET env now fs = some (.obj [("phase", .str "idle"),
       ("reason", .str "No autotune status file found yet."),
       ("new_trace_count", .num 0), ("pending_trace_count", .num 0),
       ("variants", .arr []), ("variant_runs", .arr []),
       ("winner", .null), ("promoted", .null),
       ("server_time", .str now)])) := by
  constructor
  · rw [statusGET_eq]
    rcases hr : runDirResolve (resolvedStatus fs env) (runsRootOf env) fs
      with _ | rv
    · exact ⟨_, rfl⟩
    · dsimp only
      by_cases htr : rv.truthy = true
      · rw [if_pos htr]
        rcases runDirResolve_cases _ _ _ _ hr with hg | ⟨nm, hnm⟩
        · obtain ⟨s, hs⟩ := hsafe rv hg htr
          subst hs
          exact ⟨_, rfl⟩
        · subst hnm
          exact ⟨_, rfl⟩
      · rw [if_neg htr]
        exact ⟨_, rfl⟩
  · intro h1 h2
    have hst : resolvedStatus fs env = defaultStatus := by
      unfold resolvedStatus
      rw [h1]
    have hrd : runDirResolve (resolvedStatus fs env) (runsRootOf env) fs
        = none := by
      rw [hst]
      unfold runDirResolve runDirResolveM readdirM
      have hg : defaultStatus.getField "run_dir" = none := by rfl
      rw [hg]
      dsimp only
      rw [h2]
      rfl
    rw [statusGET_eq, hrd, hst]
    rfl

def c10wfs : FS := ⟨fun _ => none, fun _ => none⟩

def c10wenv : Env := ⟨some "/data/s.json", some "/data/runs", "/srv"⟩

/-- Witness for the amended C10 at a concrete empty filesystem. -/
theorem c10_witness :
    statusGET c10wenv "2026-02-03T04:05:07.000Z" c10wfs =
      some (.obj [("phase", .str "idle"),
        ("reason", .str "No autotune status file found yet."),
        ("new_trace_count", .num 0), ("pending_trace_count", .num 0),
        ("variants", .arr []), ("variant_runs", .arr []),
        ("winner", .null), ("promoted", .null),
        ("server_time", .str "2026-02-03T04:05:07.000Z")]) :=
  (c10_amended_total_default c10wenv "2026-02-03T04:05:07.000Z" c10wfs
    (fun _ hv _ => Option.noConfusion hv)).2 rfl rfl

/-! ## Unparsable artifacts (C4) -/

/-- Filesystem with one file removed. -/
def eraseFile (fs : FS) (p : String) : FS :=
  ⟨fun q => if q = p then none else fs.files q, fs.dirs⟩

theorem statusGET_congr (env : Env) (now : String) (fs fs' : FS)
    (hfiles : ∀ q, readJsonRes fs q = readJsonRes fs' q)
    (hdirs : ∀ q, fs.dirs q = fs'.dirs q) :
    statusGET env now fs = statusGET env now fs' := by
  have hst : resolvedStatus fs env = resolvedStatus fs' env := by
    unfold resolvedStatus
    rw [hfiles]
  have hrd : ∀ s r, runDirResolve s r fs = runDirResolve s r fs' := by
    intro s r
    unfold runDirResolve runDirResolveM readdirM
    simp only [hdirs]
    rcases s.getField "run_dir" with _ | v
    · rfl
    · dsimp only
      split <;> rfl
  have hmg : ∀ st rd, mergedRunObj st rd now fs = mergedRunObj st rd now fs' := by
    intro st rd
    unfold mergedRunObj
    rw [hfiles, hfiles, hfiles]
  rw [statusGET_eq, statusGET_eq, hst, hrd]
  simp only [hmg]

/-- C4: an artifact file whose bytes fail to parse as JSON is
indistinguishable from an absent file: the GET response on a filesystem
holding the garbage file equals the response with that file removed, so
no field of the returned object ever comes from an unparsable file. -/
theorem c4_unparsable_equals_absent (env : Env) (now : String) (fs : FS)
    (p : String) (hp : fs.files p = some .garbage) :
    statusGET env now fs = statusGET env now (eraseFile fs p) := by
  apply statusGET_congr
  · intro q
    unfold readJsonRes eraseFile
    dsimp only
    by_cases hq : q = p
    · rw [if_pos hq, hq, hp]
    · rw [if_neg hq]
  · intro q
    rfl

def c4fs : FS :=
  ⟨fun p => if p = "/a/artifacts/st.json" then some .garbage else none,
   fun _ => none⟩

/-- Witness for C4: a concrete filesystem whose status file is garbage. -/
theorem c4_witness :
    statusGET ⟨some "/a/artifacts/st.json", some "/a/artifacts/runs", "/w"⟩
        "2026-02-03T09:00:00.000Z" c4fs =
      statusGET ⟨some "/a/artifacts/st.json", some "/a/artifacts/runs", "/w"⟩
        "2026-02-03T09:00:00.000Z" (eraseFile c4fs "/a/artifacts/st.json") :=
  c4_unparsable_equals_absent _ _ c4fs "/a/artifacts/st.json" (by rfl)

/-! ## Latest run directory (C5) -/

theorem pathJoin_ne_empty (a b : String) : pathJoin a b ≠ "" := by
  unfold pathJoin
  intro h
  have hl := congrArg String.length h
  have h1 : ("/" : String).length = 1 := rfl
  have h0 : ("" : String).length = 0 := rfl
  rw [String.length_append, String.length_append, h1, h0] at hl
  omega

theorem sorted_le_getLast (l : List String)
    (hs : l.Sorted (fun a b : String => a ≤ b)) (b : String)
    (hb : l.getLast? = some b) : b ∈ l ∧ ∀ x ∈ l, x ≤ b := by
  induction l with
  | nil => exact Option.noConfusion hb
  | cons a t ih =>
    cases t with
    | nil =>
      have hba : b = a := by
        have : (some a : Option String) = some b := hb
        injection this with h2
        exact h2.symm
      subst hba
      refine ⟨List.mem_singleton_self b, ?_⟩
      intro x hx
      rcases List.mem_singleton.mp hx with rfl
      exact le_refl x
    | cons c t2 =>
      have hb2 : (c :: t2).getLast? = some b := hb
      have hs2 : (c :: t2).Sorted (fun a b : String => a ≤ b) := hs.of_cons
      obtain ⟨hbm, hball⟩ := ih hs2 hb2
      refine ⟨List.mem_cons_of_mem a hbm, ?_⟩
      intro x hx
      rcases List.mem_cons.mp hx with rfl | hx2
      · exact List.rel_of_sorted_cons hs b hbm
      · exact hball x hx2

/-- C5: when the status snapshot does not itself name a run directory
(no run_dir field, or a null one) and the runs root lists at least one
subdirectory, the run directory whose artifacts GET merges is the
subdirectory with the lexicographically greatest name. -/
theorem c5_latest_run_dir_is_max (env : Env) (now : String) (fs : FS)
    (entries : List DirEntry)
    (hnull : isNullish ((resolvedStatus fs env).getField "run_dir") = true)
    (hls : fs.dirs (runsRootOf env) = some entries)
    (hne : (entries.filter (fun e => e.isDir)).map (fun e => e.name) ≠ []) :
    ∃ m best,
      statusGET env now fs = some (.obj m) ∧
      getProp m "run_dir" = some (.str (pathJoin (runsRootOf env) best)) ∧
      best ∈ (entries.filter (fun e => e.isDir)).map (fun e => e.name) ∧
      ∀ x ∈ (entries.filter (fun e => e.isDir)).map (fun e => e.name),
        x ≤ best := by
  cases hrev : (((entries.filter (fun e => e.isDir)).map
      (fun e => e.name)).insertionSort (fun a b : String => a ≤ b)).reverse with
  | nil =>
    exfalso
    have h0 : ((entries.filter (fun e => e.isDir)).map
        (fun e => e.name)).insertionSort (fun a b : String => a ≤ b) = [] :=
      List.reverse_eq_nil_iff.mp hrev
    have hlen := List.length_insertionSort (fun a b : String => a ≤ b)
      ((entries.filter (fun e => e.isDir)).map (fun e => e.name))
    rw [h0] at hlen
    exact hne (List.length_eq_zero.mp hlen.symm)
  | cons best rest =>
    have hlrd : latestRunDirCore (runsRootOf env) (some entries)
        = some (pathJoin (runsRootOf env) best) := by
      unfold latestRunDirCore
      dsimp only
      rw [hrev]
    have hrdv : runDirResolve (resolvedStatus fs env) (runsRootOf env) fs
        = some (.str (pathJoin (runsRootOf env) best)) := by
      unfold runDirResolve runDirResolveM readdirM
      rcases hgf : (resolvedStatus fs env).getField "run_dir" with _ | v
      · dsimp only
        rw [hls, hlrd]
        rfl
      · rw [hgf] at hnull
        have hv : v = .null := by
          cases v <;> first | rfl | simp [isNullish] at hnull
        subst hv
        dsimp only
        rw [if_pos (show JVal.null.isNull = true from rfl), hls, hlrd]
        rfl
    have htr : (JVal.str (pathJoin (runsRootOf env) best)).truthy = true := by
      simp [JVal.truthy, pathJoin_ne_empty]
    have hget : statusGET env now fs = some (.obj (mergedRunObj
        (resolvedStatus fs env) (pathJoin (runsRootOf env) best) now fs)) := by
      rw [statusGET_eq, hrdv]
      dsimp only
      rw [if_pos htr]
    have hbest : (((entries.filter (fun e => e.isDir)).map
        (fun e => e.name)).insertionSort
          (fun a b : String => a ≤ b)).getLast? = some best := by
      rw [← List.head?_reverse, hrev]
      rfl
    have hsort := List.sorted_insertionSort (fun a b : String => a ≤ b)
      ((entries.filter (fun e => e.isDir)).map (fun e => e.name))
    obtain ⟨hm, hall⟩ := sorted_le_getLast _ hsort best hbest
    refine ⟨mergedRunObj (resolvedStatus fs env)
      (pathJoin (runsRootOf env) best) now fs, best, hget, ?_, ?_, ?_⟩
    · unfold mergedRunObj
      rw [getProp_applyDecision_ne _ _ _ (by decide) (by decide) (by decide)
          (by decide),
        getProp_applyFindings_ne _ _ _ (by decide) (by decide),
        getProp_applyTraces_ne _ _ _ (by decide),
        getProp_setProp_ne _ _ _ _ (by decide)]
      exact getProp_setProp_self _ _ _
    · exact (List.mem_insertionSort _).mp hm
    · intro x hx
      exact hall x ((List.mem_insertionSort _).mpr hx)

def c5fs : FS :=
  ⟨fun _ => none,
   fun r => if r = "/w/artifacts/autotune/runs"
     then some [⟨"run_2024-01-01", true⟩, ⟨"run_2024-02-02", true⟩] else none⟩

def c5env : Env := ⟨none, none, "/w"⟩

/-- Witness for C5 on a runs root with two timestamped directories. -/
theorem c5_witness :
    ∃ m best,
      statusGET c5env "2026-02-03T10:00:00.000Z" c5fs = some (.obj m) ∧
      getProp m "run_dir" = some (.str (pathJoin (runsRootOf c5env) best)) ∧
      best ∈ (([⟨"run_2024-01-01", true⟩, ⟨"run_2024-02-02", true⟩] :
        List DirEntry).filter (fun e => e.isDir)).map (fun e => e.name) ∧
      ∀ x ∈ (([⟨"run_2024-01-01", true⟩, ⟨"run_2024-02-02", true⟩] :
        List DirEntry).filter (fun e => e.isDir)).map (fun e => e.name),
        x ≤ best :=
  c5_latest_run_dir_is_max c5env "2026-02-03T10:00:00.000Z" c5fs
    [⟨"run_2024-01-01", true⟩, ⟨"run_2024-02-02", true⟩]
    (by rfl) (by rfl) (by decide)

/-! ## The merged status blob (C1) -/

theorem hasProp_setProp_ne (o : JObj) (k : String) (v : JVal)
    (k' : String) (h : k' ≠ k) :
    hasProp (setProp o k v) k' = hasProp o k' := by
  unfold hasProp
  rw [getProp_setProp_ne o k v k' h]

def c1fs : FS :=
  ⟨fun p =>
    if p = "/d/status.json" then
      some (.ofJson (.obj [("new_trace_count", .num 7)]))
    else if p = "/d/runs/r1/source_traces.json" then
      some (.ofJson (.arr [.str "t1", .str "t2", .str "t3"]))
    else none,
   fun r => if r = "/d/runs" then some [⟨"r1", true⟩] else none⟩

def c1env : Env := ⟨some "/d/status.json", some "/d/runs", "/app"⟩

/-- C1 counterexample: the status file holds new_trace_count 7 while
the latest run directory r1 holds a three-element source_traces.json;
the merged response keeps the status value 7 and does not report the
array length 3, so the response does not always carry a
new_trace_count equal to the length of the source_traces.json array. -/
theorem c1_counterexample :
    readJsonRes c1fs (pathJoin "/d/runs/r1" "source_traces.json")
        = some (.arr [.str "t1", .str "t2", .str "t3"]) ∧
    statusGET c1env "2026-02-03T11:00:00.000Z" c1fs =
      some (.obj [("new_trace_count", .num 7),
        ("run_dir", .str "/d/runs/r1"),
        ("server_time", .str "2026-02-03T11:00:00.000Z")]) ∧
    (some (JVal.num 7) : Option JVal) ≠
      some (.num (([JVal.str "t1", .str "t2", .str "t3"].length : Nat) : Rat)) := by
  refine ⟨by rfl, by rfl, ?_⟩
  intro h
  injection h with h1
  injection h1 with h2
  simp at h2

/-- C1 (amended): when a run directory is determined and all three run
artifacts parse with the expected shapes, the GET response merges them
with the status snapshot taking precedence: new_trace_count comes from
source_traces.json only when the snapshot lacks that key; variants,
findings and variant_runs come from the artifacts only when the
snapshot value is not a non-empty array; winner and promoted only when
the snapshot value is missing or null; reason only when the snapshot
value is not a string; every other snapshot field is passed through,
and run_dir and server_time are set by the route. -/
theorem c1_amended_merge (env : Env) (now : String) (fs : FS) (rd : String)
    (sf : JObj) (ts : List JVal) (vs gs rs : List JVal) (fv dv : JVal)
    (hst : resolvedStatus fs env = .obj sf)
    (hrd : runDirResolve (resolvedStatus fs env) (runsRootOf env) fs
      = some (.str rd))
    (hrdne : rd ≠ "")
    (htr : readJsonRes fs (pathJoin rd "source_traces.json")
      = some (.arr ts))
    (hfv : readJsonRes fs (pathJoin rd "findings_and_variants.json")
      = some fv)
    (hfvT : fv.truthy = true)
    (hfvv : fv.getField "variants" = some (.arr vs))
    (hfvg : fv.getField "findings" = some (.arr gs))
    (hdv : readJsonRes fs (pathJoin rd "promotion_decision.json") = some dv)
    (hdvT : dv.truthy = true)
    (hdvr : dv.getField "variant_runs" = some (.arr rs)) :
    ∃ m, statusGET env now fs = some (.obj m) ∧
      getProp m "run_dir" = some (.str rd) ∧
      getProp m "server_time" = some (.str now) ∧
      getProp m "new_trace_count" =
        (match getProp sf "new_trace_count" with
         | some v => some v
         | none => some (.num (ts.length : Nat))) ∧
      getProp m "variants" =
        (if isNonEmptyArray (getProp sf "variants") = true
         then getProp sf "variants" else some (.arr vs)) ∧
      getProp m "findings" =
        (if isNonEmptyArray (getProp sf "findings") = true
         then getProp sf "findings" else some (.arr gs)) ∧
      getProp m "variant_runs" =
        (if isNonEmptyArray (getProp sf "variant_runs") = true
         then getProp sf "variant_runs" else some (.arr rs)) ∧
      getProp m "winner" =
        (if isNullish (getProp sf "winner") = true
         then some (coalesceNull (dv.getField "winner"))
         else getProp sf "winner") ∧
      getProp m "promoted" =
        (if isNullish (getProp sf "promoted") = true
         then some (coalesceNull (dv.getField "promoted"))
         else getProp sf "promoted") ∧
      getProp m "reason" =
        reasonResult (getProp sf "reason") (dv.getField "reason") ∧
      (∀ k v, getProp sf k = some v →
        k ∉ ["run_dir", "server_time", "new_trace_count", "variants",
          "findings", "variant_runs", "winner", "promoted", "reason"] →
        getProp m k = some v) := by
  have htru : (JVal.str rd).truthy = true := by
    simp [JVal.truthy, hrdne]
  have hget : statusGET env now fs
      = some (.obj (mergedRunObj (resolvedStatus fs env) rd now fs)) := by
    rw [statusGET_eq, hrd]
    dsimp only
    rw [if_pos htru]
  have hspread : (resolvedStatus fs env).spreadFields = sf := by
    rw [hst]
    rfl
  have hbase : ∀ k, k ≠ "run_dir" → k ≠ "server_time" →
      getProp (setProp (setProp (resolvedStatus fs env).spreadFields
        "run_dir" (.str rd)) "server_time" (.str now)) k = getProp sf k := by
    intro k h1 h2
    rw [getProp_setProp_ne _ _ _ _ h2, getProp_setProp_ne _ _ _ _ h1, hspread]
  refine ⟨mergedRunObj (resolvedStatus fs env) rd now fs, hget,
    ?_, ?_, ?_, ?_, ?_, ?_, ?_, ?_, ?_, ?_⟩
  · unfold mergedRunObj
    rw [htr, hfv, hdv,
      getProp_applyDecision_ne _ _ _ (by decide) (by decide) (by decide)
        (by decide),
      getProp_applyFindings_ne _ _ _ (by decide) (by decide),
      getProp_applyTraces_ne _ _ _ (by decide),
      getProp_setProp_ne _ _ _ _ (by decide)]
    exact getProp_setProp_self _ _ _
  · unfold mergedRunObj
    rw [htr, hfv, hdv,
      getProp_applyDecision_ne _ _ _ (by decide) (by decide) (by decide)
        (by decide),
      getProp_applyFindings_ne _ _ _ (by decide) (by decide),
      getProp_applyTraces_ne _ _ _ (by decide)]
    exact getProp_setProp_self _ _ _
  · unfold mergedRunObj
    rw [htr, hfv, hdv,
      getProp_applyDecision_ne _ _ _ (by decide) (by decide) (by decide)
        (by decide),
      getProp_applyFindings_ne _ _ _ (by decide) (by decide),
      getProp_applyTraces_count]
    have hbc := hbase "new_trace_count" (by decide) (by decide)
    have hhc : hasProp (setProp (setProp (resolvedStatus fs env).spreadFields
        "run_dir" (.str rd)) "server_time" (.str now)) "new_trace_count"
        = hasProp sf "new_trace_count" := by
      unfold hasProp
      rw [hbc]
    rw [hhc, hbc]
    rcases hsf : getProp sf "new_trace_count" with _ | v
    · have hh : hasProp sf "new_trace_count" = false := by
        unfold hasProp
        rw [hsf]
        rfl
      rw [hh]
      rfl
    · have hh : hasProp sf "new_trace_count" = true := by
        unfold hasProp
        rw [hsf]
        rfl
      rw [hh]
      rfl
  · unfold mergedRunObj
    rw [htr, hfv, hdv,
      getProp_applyDecision_ne _ _ _ (by decide) (by decide) (by decide)
        (by decide),
      getProp_applyFindings_variants _ _ hfvT,
      getProp_applyTraces_ne _ _ _ (by decide),
      hbase "variants" (by decide) (by decide), hfvv]
    rfl
  · unfold mergedRunObj
    rw [htr, hfv, hdv,
      getProp_applyDecision_ne _ _ _ (by decide) (by decide) (by decide)
        (by decide),
      getProp_applyFindings_findings _ _ hfvT,
      getProp_applyTraces_ne _ _ _ (by decide),
      hbase "findings" (by decide) (by decide), hfvg]
    rfl
  · unfold mergedRunObj
    rw [htr, hfv, hdv,
      getProp_applyDecision_variant_runs _ _ hdvT,
      getProp_applyFindings_ne _ _ _ (by decide) (by decide),
      getProp_applyTraces_ne _ _ _ (by decide),
      hbase "variant_runs" (by decide) (by decide), hdvr]
    rfl
  · unfold mergedRunObj
    rw [htr, hfv, hdv,
      getProp_applyDecision_winner _ _ hdvT,
      getProp_applyFindings_ne _ _ _ (by decide) (by decide),
      getProp_applyTraces_ne _ _ _ (by decide),
      hbase "winner" (by decide) (by decide)]
  · unfold mergedRunObj
    rw [htr, hfv, hdv,
      getProp_applyDecision_promoted _ _ hdvT,
      getProp_applyFindings_ne _ _ _ (by decide) (by decide),
      getProp_applyTraces_ne _ _ _ (by decide),
      hbase "promoted" (by decide) (by decide)]
  · unfold mergedRunObj
    rw [htr, hfv, hdv,
      getProp_applyDecision_reason _ _ hdvT,
      getProp_applyFindings_ne _ _ _ (by decide) (by decide),
      getProp_applyTraces_ne _ _ _ (by decide),
      hbase "reason" (by decide) (by decide)]
  · intro k v hk hkn
    simp only [List.mem_cons, List.mem_singleton, not_or] at hkn
    obtain ⟨n1, n2, n3, n4, n5, n6, n7, n8, n9, _⟩ := hkn
    unfold mergedRunObj
    rw [htr, hfv, hdv,
      getProp_applyDecision_ne _ _ _ n6 n7 n8 n9,
      getProp_applyFindings_ne _ _ _ n4 n5,
      getProp_applyTraces_ne _ _ _ n3,
      getProp_setProp_ne _ _ _ _ n2, getProp_setProp_ne _ _ _ _ n1,
      hspread, hk]

def c1wfs : FS :=
  ⟨fun p =>
    if p = "/d/status.json" then some (.ofJson (.obj [])) else
    if p = "/d/runs/r9/source_traces.json" then
      some (.ofJson (.arr [.str "a", .str "b"])) else
    if p = "/d/runs/r9/findings_and_variants.json" then
      some (.ofJson (.obj [("variants", .arr [.str "v1"]),
        ("findings", .arr [.str "f1"])])) else
    if p = "/d/runs/r9/promotion_decision.json" then
      some (.ofJson (.obj [("variant_runs", .arr [.str "vr"]),
        ("winner", .str "v1"), ("promoted", .bool true),
        ("reason", .str "ok")])) else none,
   fun r => if r = "/d/runs" then some [⟨"r9", true⟩] else none⟩

def c1wenv : Env := ⟨some "/d/status.json", some "/d/runs", "/app"⟩

/-- Witness for the amended C1 on a concrete run with all artifacts. -/
theorem c1_witness :
    ∃ m, statusGET c1wenv "2026-02-03T12:00:00.000Z" c1wfs = some (.obj m) ∧
      getProp m "run_dir" = some (.str "/d/runs/r9") ∧
      getProp m "server_time" = some (.str "2026-02-03T12:00:00.000Z") ∧
      getProp m "new_trace_count" =
        (match getProp [] "new_trace_count" with
         | some v => some v
         | none => some (.num (([JVal.str "a", .str "b"].length : Nat)))) ∧
      getProp m "variants" =
        (if isNonEmptyArray (getProp [] "variants") = true
         then getProp [] "variants" else some (.arr [.str "v1"])) ∧
      getProp m "findings" =
        (if isNonEmptyArray (getProp [] "findings") = true
         then getProp [] "findings" else some (.arr [.str "f1"])) ∧
      getProp m "variant_runs" =
        (if isNonEmptyArray (getProp [] "variant_runs") = true
         then getProp [] "variant_runs" else some (.arr [.str "vr"])) ∧
      getProp m "winner" =
        (if isNullish (getProp [] "winner") = true
         then some (coalesceNull ((JVal.obj [("variant_runs", .arr [.str "vr"]),
           ("winner", .str "v1"), ("promoted", .bool true),
           ("reason", .str "ok")]).getField "winner"))
         else getProp [] "winner") ∧
      getProp m "promoted" =
        (if isNullish (getProp [] "promoted") = true
         then some (coalesceNull ((JVal.obj [("variant_runs", .arr [.str "vr"]),
           ("winner", .str "v1"), ("promoted", .bool true),
           ("reason", .str "ok")]).getField "promoted"))
         else getProp [] "promoted") ∧
      getProp m "reason" =
        reasonResult (getProp [] "reason")
          ((JVal.obj [("variant_runs", .arr [.str "vr"]),
            ("winner", .str "v1"), ("promoted", .bool true),
            ("reason", .str "ok")]).getField "reason") ∧
      (∀ k v, getProp [] k = some v →
        k ∉ ["run_dir", "server_time", "new_trace_count", "variants",
          "findings", "variant_runs", "winner", "promoted", "reason"] →
        getProp m k = some v) :=
  c1_amended_merge c1wenv "2026-02-03T12:00:00.000Z" c1wfs "/d/runs/r9"
    [] [.str "a", .str "b"] [.str "v1"] [.str "f1"] [.str "vr"]
    (.obj [("variants", .arr [.str "v1"]), ("findings", .arr [.str "f1"])])
    (.obj [("variant_runs", .arr [.str "vr"]), ("winner", .str "v1"),
      ("promoted", .bool true), ("reason", .str "ok")])
    (by rfl) (by rfl) (by decide) (by rfl) (by rfl) (by rfl) (by rfl)
    (by rfl) (by rfl) (by rfl) (by rfl)

/-! ## Transcript store (src/lib/braintrust.ts)

The module-level state consists of the Map `transcriptStore` (iterated
in insertion order, as JS Maps are) and `mostRecentCallId`.  A JS
`Map.set` on an existing key keeps its position; a new key is appended;
`keys().next()` yields the first (oldest) key. -/

structure TranscriptTurn where
  turn_id : Int
  timestamp : String
  user_text : String
  assistant_text : String
  risk_level : String
  emotion_state : String
  action_taken : String

def MAX_TRANSCRIPT_TURNS_PER_CALL : Nat := 300

def MAX_TRANSCRIPT_CALLS : Nat := 500

abbrev TranscriptStore := List (String × List TranscriptTurn)

/-- `transcriptStore.get(c)`. -/
def storeGet (s : TranscriptStore) (c : String) :
    Option (List TranscriptTurn) :=
  (s.find? (fun p => p.1 = c)).map (fun p => p.2)

/-- `transcriptStore.set(c, v)`: in-place update or append. -/
def storeSet (s : TranscriptStore) (c : String) (v : List TranscriptTurn) :
    TranscriptStore :=
  if (s.find? (fun p => p.1 = c)).isSome then
    s.map (fun p => if p.1 = c then (c, v) else p)
  else s ++ [(c, v)]

/-- The source function `pruneTranscriptStore`: while the store holds
more than MAX_TRANSCRIPT_CALLS calls, delete the oldest key; the loop
removes one oldest entry per iteration until the bound holds, which
drops exactly the first `length - MAX_TRANSCRIPT_CALLS` entries. -/
def pruneTranscriptStore (s : TranscriptStore) : TranscriptStore :=
  s.drop (s.length - MAX_TRANSCRIPT_CALLS)

/-- The sort comparator of `upsertTranscriptTurn`: ascending turn_id,
ties broken by timestamp (localeCompare modelled as string order). -/
def turnLE (a b : TranscriptTurn) : Prop :=
  a.turn_id < b.turn_id ∨ (a.turn_id = b.turn_id ∧ a.timestamp ≤ b.timestamp)

instance : DecidableRel turnLE := fun a b => by
  unfold turnLE
  exact inferInstance

instance : IsTotal TranscriptTurn turnLE := by
  constructor
  intro a b
  rcases lt_trichotomy a.turn_id b.turn_id with h | h | h
  · exact Or.inl (Or.inl h)
  · rcases le_total a.timestamp b.timestamp with ht | ht
    · exact Or.inl (Or.inr ⟨h, ht⟩)
    · exact Or.inr (Or.inr ⟨h.symm, ht⟩)
  · exact Or.inr (Or.inl h)

instance : IsTrans TranscriptTurn turnLE := by
  constructor
  intro a b c hab hbc
  rcases hab with h1 | ⟨e1, t1⟩
  · rcases hbc with h2 | ⟨e2, t2⟩
    · exact Or.inl (h1.trans h2)
    · exact Or.inl (e2 ▸ h1)
  · rcases hbc with h2 | ⟨e2, t2⟩
    · exact Or.inl (e1 ▸ h2)
    · exact Or.inr ⟨e1.trans e2, t1.trans t2⟩

/-- The `[...withoutCurrentTurn, turn].sort(...)` call. -/
def sortTurns (l : List TranscriptTurn) : List TranscriptTurn :=
  l.insertionSort turnLE

/-- The per-call list produced by `upsertTranscriptTurn`: drop entries
with the same turn_id, insert the new turn, sort, and cap at
MAX_TRANSCRIPT_TURNS_PER_CALL by splicing away the oldest turns. -/
def upsertList (previous : List TranscriptTurn) (turn : TranscriptTurn) :
    List TranscriptTurn :=
  let withoutCurrentTurn :=
    previous.filter (fun item => item.turn_id ≠ turn.turn_id)
  let next := sortTurns (withoutCurrentTurn ++ [turn])
  if MAX_TRANSCRIPT_TURNS_PER_CALL < next.length then
    next.drop (next.length - MAX_TRANSCRIPT_TURNS_PER_CALL)
  else next

/-- Module state mutated by the logging functions. -/
structure LogState where
  transcriptStore : TranscriptStore
  mostRecentCallId : Option String

/-- The source function `upsertTranscriptTurn`. -/
def upsertTranscriptTurn (st : LogState) (callId : String)
    (turn : TranscriptTurn) : LogState :=
  { mostRecentCallId := some callId,
    transcriptStore := pruneTranscriptStore (storeSet st.transcriptStore
      callId (upsertList ((storeGet st.transcriptStore callId).getD []) turn)) }

/-- Store-relevant effect of the two exported logging functions:
`logAgentTurnEvent` upserts the turn built from its input;
`logSafetyActionEvent` sets `mostRecentCallId` and only reads the
store (its transcript comes from the context or from a `get`). -/
inductive LogOp where
  | agentTurn (callId : String) (turn : TranscriptTurn)
  | safetyAction (callId : String)

def applyLogOp (st : LogState) : LogOp → LogState
  | .agentTurn c t => upsertTranscriptTurn st c t
  | .safetyAction c => { st with mostRecentCallId := some c }

def runLogOps (ops : List LogOp) : LogState :=
  ops.foldl applyLogOp ⟨[], none⟩

/-- Strictly ascending turn ids. -/
def strictTurns (l : List TranscriptTurn) : Prop :=
  l.Pairwise (fun a b => a.turn_id < b.turn_id)

/-- The store invariant of C7 and C8. -/
def StoreInv (s : TranscriptStore) : Prop :=
  s.length ≤ MAX_TRANSCRIPT_CALLS ∧
  ∀ p ∈ s, p.2.length ≤ MAX_TRANSCRIPT_TURNS_PER_CALL ∧ strictTurns p.2

theorem mem_pruneTranscriptStore (s : TranscriptStore)
    (p : String × List TranscriptTurn) (hp : p ∈ pruneTranscriptStore s) :
    p ∈ s := by
  unfold pruneTranscriptStore at hp
  exact (List.drop_sublist _ _).mem hp

theorem length_pruneTranscriptStore (s : TranscriptStore) :
    (pruneTranscriptStore s).length ≤ MAX_TRANSCRIPT_CALLS := by
  unfold pruneTranscriptStore
  rw [List.length_drop]
  by_cases h : s.length ≤ MAX_TRANSCRIPT_CALLS
  · omega
  · omega

theorem storeSet_entries {P : List TranscriptTurn → Prop}
    (s : TranscriptStore) (c : String) (v : List TranscriptTurn)
    (hs : ∀ p ∈ s, P p.2) (hv : P v) :
    ∀ p ∈ storeSet s c v, P p.2 := by
  intro p hp
  unfold storeSet at hp
  split at hp
  · rcases List.mem_map.mp hp with ⟨q, hq, hpq⟩
    by_cases h : q.1 = c
    · rw [if_pos h] at hpq
      rw [← hpq]
      exact hv
    · rw [if_neg h] at hpq
      rw [← hpq]
      exact hs q hq
  · rcases List.mem_append.mp hp with h | h
    · exact hs p h
    · rw [List.mem_singleton.mp h]
      exact hv

theorem length_storeSet (s : TranscriptStore) (c : String)
    (v : List TranscriptTurn) :
    (storeSet s c v).length ≤ s.length + 1 := by
  unfold storeSet
  split
  · rw [List.length_map]
    omega
  · rw [List.length_append]
    simp

theorem storeGet_mem (s : TranscriptStore) (c : String)
    (l : List TranscriptTurn) (h : storeGet s c = some l) : (c, l) ∈ s := by
  unfold storeGet at h
  cases hf : s.find? (fun p => p.1 = c) with
  | none =>
    rw [hf] at h
    exact Option.noConfusion h
  | some p =>
    rw [hf] at h
    injection h with h2
    have hp1 : p.1 = c := by
      have := List.find?_some hf
      simpa using this
    have hpm : p ∈ s := List.mem_of_find?_eq_some hf
    have hpc : p = (c, l) := by
      cases p
      cases hp1
      cases h2
      rfl
    rw [← hpc]
    exact hpm

theorem storeSet_key_value (s : TranscriptStore) (c : String)
    (v : List TranscriptTurn) (p : String × List TranscriptTurn)
    (hp : p ∈ storeSet s c v) (hk : p.1 = c) : p.2 = v := by
  unfold storeSet at hp
  split at hp
  · rcases List.mem_map.mp hp with ⟨q, hq, hpq⟩
    by_cases h : q.1 = c
    · rw [if_pos h] at hpq
      rw [← hpq]
    · rw [if_neg h] at hpq
      rw [← hpq] at hk
      exact absurd hk h
  · next hfind =>
    rcases List.mem_append.mp hp with h | h
    · exfalso
      have hnone : s.find? (fun p => p.1 = c) = none := by
        cases hf2 : s.find? (fun p => p.1 = c) with
        | none => rfl
        | some q =>
          rw [hf2] at hfind
          simp at hfind
      have := List.find?_eq_none.mp hnone p h
      simp [hk] at this
    · rw [List.mem_singleton.mp h]

theorem length_upsertList (prev : List TranscriptTurn) (t : TranscriptTurn) :
    (upsertList prev t).length ≤ MAX_TRANSCRIPT_TURNS_PER_CALL := by
  unfold upsertList
  dsimp only
  split
  · next h =>
    rw [List.length_drop]
    omega
  · next h => omega

theorem strictTurns_upsertList (prev : List TranscriptTurn)
    (t : TranscriptTurn) (h : strictTurns prev) :
    strictTurns (upsertList prev t) := by
  unfold upsertList
  dsimp only
  have hne : List.Pairwise (fun a b : TranscriptTurn => a.turn_id ≠ b.turn_id)
      (prev.filter (fun item => item.turn_id ≠ t.turn_id) ++ [t]) := by
    rw [List.pairwise_append]
    refine ⟨?_, List.pairwise_singleton _ _, ?_⟩
    · exact (List.Pairwise.sublist (List.filter_sublist prev) h).imp
        (fun hab => ne_of_lt hab)
    · intro a ha b hb
      rw [List.mem_singleton.mp hb]
      have := (List.mem_filter.mp ha).2
      simpa using this
  have hsorted : List.Pairwise turnLE
      (sortTurns (prev.filter (fun item => item.turn_id ≠ t.turn_id) ++ [t])) :=
    List.sorted_insertionSort turnLE _
  have hperm : (sortTurns (prev.filter
      (fun item => item.turn_id ≠ t.turn_id) ++ [t])).Perm
      (prev.filter (fun item => item.turn_id ≠ t.turn_id) ++ [t]) :=
    List.perm_insertionSort turnLE _
  have hne2 : List.Pairwise (fun a b : TranscriptTurn => a.turn_id ≠ b.turn_id)
      (sortTurns (prev.filter (fun item => item.turn_id ≠ t.turn_id) ++ [t])) :=
    (List.Perm.pairwise_iff (fun hxy => hxy.symm) hperm).mpr hne
  have hlt : strictTurns
      (sortTurns (prev.filter (fun item => item.turn_id ≠ t.turn_id) ++ [t])) := by
    refine (hsorted.and hne2).imp ?_
    intro a b hab
    rcases hab with ⟨hle | ⟨he, _⟩, hne3⟩
    · exact hle
    · exact absurd he hne3
  split
  · exact List.Pairwise.sublist (List.drop_sublist _ _) hlt
  · exact hlt

theorem upsertList_unique (prev : List TranscriptTurn) (t : TranscriptTurn)
    (x : TranscriptTurn) (hx : x ∈ upsertList prev t)
    (hid : x.turn_id = t.turn_id) : x = t := by
  unfold upsertList at hx
  dsimp only at hx
  have hx2 : x ∈ sortTurns (prev.filter
      (fun item => item.turn_id ≠ t.turn_id) ++ [t]) := by
    split at hx
    · exact (List.drop_sublist _ _).mem hx
    · exact hx
  have hx3 : x ∈ prev.filter (fun item => item.turn_id ≠ t.turn_id) ++ [t] := by
    unfold sortTurns at hx2
    exact (List.mem_insertionSort turnLE).mp hx2
  rcases List.mem_append.mp hx3 with h | h
  · have := (List.mem_filter.mp h).2
    simp [hid] at this
  · exact List.mem_singleton.mp h

theorem upsertList_mem (prev : List TranscriptTurn) (t : TranscriptTurn)
    (hlen : prev.length ≤ MAX_TRANSCRIPT_TURNS_PER_CALL)
    (hex : ∃ x ∈ prev, x.turn_id = t.turn_id) : t ∈ upsertList prev t := by
  unfold upsertList
  dsimp only
  have hfl : (prev.filter (fun item => item.turn_id ≠ t.turn_id)).length
      < prev.length := by
    rw [List.length_filter_lt_length_iff_exists]
    obtain ⟨x, hx, hid⟩ := hex
    exact ⟨x, hx, by simp [hid]⟩
  have hlen2 : (sortTurns (prev.filter
      (fun item => item.turn_id ≠ t.turn_id) ++ [t])).length
      = (prev.filter (fun item => item.turn_id ≠ t.turn_id)).length + 1 := by
    unfold sortTurns
    rw [List.length_insertionSort, List.length_append]
    rfl
  have hmem : t ∈ sortTurns (prev.filter
      (fun item => item.turn_id ≠ t.turn_id) ++ [t]) := by
    unfold sortTurns
    rw [List.mem_insertionSort]
    exact List.mem_append.mpr (Or.inr (List.mem_singleton.mpr rfl))
  split
  · next h =>
    exfalso
    rw [hlen2] at h
    unfold MAX_TRANSCRIPT_TURNS_PER_CALL at h hlen
    omega
  · exact hmem

theorem storeInv_applyLogOp (st : LogState) (op : LogOp)
    (h : StoreInv st.transcriptStore) :
    StoreInv (applyLogOp st op).transcriptStore := by
  cases op with
  | safetyAction c => exact h
  | agentTurn c t =>
    unfold applyLogOp upsertTranscriptTurn
    dsimp only
    constructor
    · exact length_pruneTranscriptStore _
    · intro p hp
      have hp2 := mem_pruneTranscriptStore _ _ hp
      have hstrict : strictTurns
          (upsertList ((storeGet st.transcriptStore c).getD []) t) := by
        apply strictTurns_upsertList
        cases hg : storeGet st.transcriptStore c with
        | none => exact List.Pairwise.nil
        | some l => exact (h.2 (c, l) (storeGet_mem _ _ _ hg)).2
      exact @storeSet_entries
        (fun l => l.length ≤ MAX_TRANSCRIPT_TURNS_PER_CALL ∧ strictTurns l)
        st.transcriptStore c
        (upsertList ((storeGet st.transcriptStore c).getD []) t)
        (fun q hq => h.2 q hq) ⟨length_upsertList _ _, hstrict⟩ p hp2

theorem storeInv_runLogOps (ops : List LogOp) :
    StoreInv (runLogOps ops).transcriptStore := by
  unfold runLogOps
  have hstep : ∀ (st : LogState), StoreInv st.transcriptStore →
      StoreInv ((ops.foldl applyLogOp st).transcriptStore) := by
    induction ops with
    | nil => intro st h; exact h
    | cons op rest ih =>
      intro st h
      exact ih _ (storeInv_applyLogOp st op h)
  refine hstep ⟨[], none⟩ ⟨?_, ?_⟩
  · exact Nat.zero_le _
  · intro p hp
    exact absurd hp (List.not_mem_nil p)

/-- C8: the in-memory transcript store is bounded: for every sequence
of logAgentTurnEvent and logSafetyActionEvent calls starting from the
empty store, the store holds at most MAX_TRANSCRIPT_CALLS calls and
every call holds at most MAX_TRANSCRIPT_TURNS_PER_CALL turns. -/
theorem c8_store_bounded (ops : List LogOp) :
    (runLogOps ops).transcriptStore.length ≤ MAX_TRANSCRIPT_CALLS ∧
    ∀ c l, storeGet (runLogOps ops).transcriptStore c = some l →
      l.length ≤ MAX_TRANSCRIPT_TURNS_PER_CALL := by
  have h := storeInv_runLogOps ops
  refine ⟨h.1, ?_⟩
  intro c l hg
  exact (h.2 (c, l) (storeGet_mem _ _ _ hg)).1

def c8turn : TranscriptTurn :=
  ⟨1, "2026-02-03T00:00:01.000Z", "hi", "hello", "low", "calm", "none"⟩

/-- Witness for C8 after one agent-turn log call. -/
theorem c8_witness :
    (runLogOps [.agentTurn "call1" c8turn]).transcriptStore.length
      ≤ MAX_TRANSCRIPT_CALLS ∧
    ([c8turn] : List TranscriptTurn).length ≤ MAX_TRANSCRIPT_TURNS_PER_CALL :=
  ⟨(c8_store_bounded [.agentTurn "call1" c8turn]).1,
   (c8_store_bounded [.agentTurn "call1" c8turn]).2 "call1" [c8turn] (by rfl)⟩

/-- C7: after any sequence of logging calls, logging a turn for call c
yields a stored transcript whose entries are strictly ascending in
turn_id (hence at most one entry per turn_id); the only entry carrying
the new turn id is the new turn itself, and when the call already had
an entry with that turn_id the new turn is present — the earlier
user/assistant pair is replaced, not duplicated. -/
theorem c7_transcript_turns_ordered (ops : List LogOp) (c : String)
    (t : TranscriptTurn) (l' : List TranscriptTurn)
    (hl' : storeGet (applyLogOp (runLogOps ops)
      (.agentTurn c t)).transcriptStore c = some l') :
    strictTurns l' ∧
    (∀ x ∈ l', x.turn_id = t.turn_id → x = t) ∧
    ((∃ l x, storeGet (runLogOps ops).transcriptStore c = some l ∧ x ∈ l ∧
      x.turn_id = t.turn_id) → t ∈ l') := by
  have hinv := storeInv_runLogOps ops
  unfold applyLogOp upsertTranscriptTurn at hl'
  dsimp only at hl'
  have hl2 : l' = upsertList
      ((storeGet (runLogOps ops).transcriptStore c).getD []) t := by
    have hp := storeGet_mem _ _ _ hl'
    have hp2 := mem_pruneTranscriptStore _ _ hp
    exact storeSet_key_value _ _ _ _ hp2 rfl
  have hprevS : strictTurns
      ((storeGet (runLogOps ops).transcriptStore c).getD []) := by
    cases hg : storeGet (runLogOps ops).transcriptStore c with
    | none => exact List.Pairwise.nil
    | some l => exact (hinv.2 (c, l) (storeGet_mem _ _ _ hg)).2
  refine ⟨?_, ?_, ?_⟩
  · rw [hl2]
    exact strictTurns_upsertList _ _ hprevS
  · intro x hx hid
    rw [hl2] at hx
    exact upsertList_unique _ t x hx hid
  · rintro ⟨l, x, hgl, hxl, hid⟩
    rw [hl2, hgl]
    apply upsertList_mem
    · exact (hinv.2 (c, l) (storeGet_mem _ _ _ hgl)).1
    · exact ⟨x, hxl, hid⟩

def c7turnA : TranscriptTurn :=
  ⟨1, "2026-02-03T00:00:01.000Z", "hi", "hello", "low", "calm", "none"⟩

def c7turnB : TranscriptTurn :=
  ⟨1, "2026-02-03T00:00:09.000Z", "hi again", "hello again", "low", "calm",
   "none"⟩

/-- Witness for C7: re-logging turn 1 of a call replaces the pair. -/
theorem c7_witness :
    strictTurns [c7turnB] ∧
    (∀ x ∈ [c7turnB], x.turn_id = c7turnB.turn_id → x = c7turnB) ∧
    c7turnB ∈ [c7turnB] := by
  have h := c7_transcript_turns_ordered [.agentTurn "call9" c7turnA] "call9"
    c7turnB [c7turnB] (by rfl)
  exact ⟨h.1, h.2.1, h.2.2 ⟨[c7turnA], c7turnA, by rfl, List.mem_singleton.mpr rfl, rfl⟩⟩

/-! ## The agent-turn endpoint (app/api/agent/turn/route.ts)

The request body is `req.json()` output cast to the route's
`AgentTurnRequest` interface, so every slot can hold any JSON value:
the lat and lon slots, which the handler guards with
`Number.isFinite(Number(x))`, are classified by their JS `Number()`
conversion, and the string-typed slots (userText, state, county, the
call and conversation ids) by whether they are a string, nullish, or
some other value — `?.trim()` on a non-nullish non-string throws a
TypeError, which surfaces as a 500 error response instead of the
handler's own JSON; the result value `none` models that throw.  The
three context services are oracles returning their summary string or
failing (the route catches failures and substitutes fixed fallback
summaries), and `generateAgentDecision` is a total oracle: its
implementation returns a fallback decision on every error path and
never throws.  The transcript-logging side effects are the LogOp
operations above. -/

inductive RiskLevel where
  | low
  | medium
  | high
  | critical
deriving DecidableEq

inductive EmotionState where
  | calm
  | anxious
  | panicked
  | agitated
deriving DecidableEq

inductive DeescalationStyle where
  | reassure
  | grounding
  | directive
deriving DecidableEq

inductive ActionType where
  | none
  | safety_plan
  | resource_handoff
  | emergency_guidance
deriving DecidableEq

structure AgentAction where
  type : ActionType
  should_execute : Bool
  reason : String
  urgency : RiskLevel
deriving DecidableEq

structure AgentDecision where
  risk_level : RiskLevel
  emotion_state : EmotionState
  deescalation_style : DeescalationStyle
  spoken_response : String
  action : AgentAction
deriving DecidableEq

/-- The constant `MISSING_LOCATION_DECISION` of the route. -/
def MISSING_LOCATION_DECISION : AgentDecision :=
  ⟨.medium, .anxious, .reassure,
   "I can help. Please share where you are calling from so I can check real-time local weather.",
   ⟨.none, false, "Missing location", .low⟩⟩

/-- A JSON value sitting in a numeric slot, classified by its JS
Number() conversion: absent (undefined, NaN), null (0), a JSON number
(finite), another value coercing to a finite number (such as a numeric
string or a boolean), or a value coercing to NaN or an infinity. -/
inductive NumSlot where
  | absent
  | nullv
  | num (q : Rat)
  | coerced (q : Rat)
  | nonfinite
deriving DecidableEq

/-- The finite value of `Number(x)` when `Number.isFinite` holds. -/
def NumSlot.toFiniteNumber : NumSlot → Option Rat
  | .absent => Option.none
  | .nullv => some 0
  | .num q => some q
  | .coerced q => some q
  | .nonfinite => Option.none

/-- A JSON value sitting in a string-typed slot, as the raw cast body
delivers it: absent (undefined), null, an actual string, or any other
JSON value (number, boolean, array, object) — non-nullish and
non-string, so `?.trim()` on it throws a TypeError and
`typeof x === "string"` is false. -/
inductive StrSlot where
  | absent
  | nullv
  | str (s : String)
  | other
deriving DecidableEq

/-- Model of JS `String.prototype.trim`: drop whitespace from both
ends (structurally recursive so that concrete inputs evaluate). -/
def jsTrim (s : String) : String :=
  ⟨((s.data.dropWhile Char.isWhitespace).reverse.dropWhile
    Char.isWhitespace).reverse⟩

/-- Evaluation of `x?.trim()` on a raw slot: the inner value is
undefined when the slot is nullish and the trimmed string when it is
a string; the outer `none` is the TypeError thrown on anything else. -/
def StrSlot.optChainTrim : StrSlot → Option (Option String)
  | .absent => some Option.none
  | .nullv => some Option.none
  | .str s => some (some (jsTrim s))
  | .other => Option.none

structure AgentReqLocation where
  lat : NumSlot
  lon : NumSlot
  state : StrSlot
  county : StrSlot

structure AgentTurnRequest where
  userText : StrSlot
  emotionState : StrSlot
  location : Option AgentReqLocation
  call_id : StrSlot
  callId : StrSlot
  conversation_id : StrSlot
  conversationId : StrSlot
  turn_id : NumSlot
  turnId : NumSlot

structure AgentReqHeaders where
  xCallId : Option String
  xConversationId : Option String
  xTurnId : NumSlot

/-- The source helper `readString` on a raw body slot: the leading
`typeof value === "string"` test makes it total on every JSON value. -/
def readStringOpt (v : StrSlot) : Option String :=
  match v with
  | .str s => if jsTrim s ≠ "" then some (jsTrim s) else Option.none
  | _ => Option.none

/-- The source helper `readString` applied to a header value
(`req.headers.get` returns a string or null, never another type). -/
def readStringHdr (v : Option String) : Option String :=
  match v with
  | some s => if jsTrim s ≠ "" then some (jsTrim s) else Option.none
  | Option.none => Option.none

/-- The source helper `readPositiveInt`. -/
def readPositiveInt (v : NumSlot) : Option Int :=
  match v.toFiniteNumber with
  | Option.none => Option.none
  | some q =>
    let intValue := ⌊q⌋
    if 0 < intValue then some intValue else Option.none

/-- The source helper `getCallId`. -/
def getCallId (body : AgentTurnRequest) (hdr : AgentReqHeaders)
    (mostRecent : Option String) (nowMs : Int) : String :=
  ((readStringOpt body.call_id <|> readStringOpt body.callId <|>
    readStringOpt body.conversation_id <|> readStringOpt body.conversationId <|>
    readStringHdr hdr.xCallId <|> readStringHdr hdr.xConversationId <|>
    mostRecent)).getD ("call_" ++ toString nowMs)

/-- The source helper `getTurnId`. -/
def getTurnId (body : AgentTurnRequest) (hdr : AgentReqHeaders) : Int :=
  ((readPositiveInt body.turn_id <|> readPositiveInt body.turnId <|>
    readPositiveInt hdr.xTurnId)).getD 1

/-- The slot read by `Number(body.location?.lat)`. -/
def locLat (body : AgentTurnRequest) : NumSlot :=
  match body.location with
  | some l => l.lat
  | Option.none => .absent

/-- The slot read by `Number(body.location?.lon)`. -/
def locLon (body : AgentTurnRequest) : NumSlot :=
  match body.location with
  | some l => l.lon
  | Option.none => .absent

/-- The slot read by `body.location?.state`. -/
def locState (body : AgentTurnRequest) : StrSlot :=
  match body.location with
  | some l => l.state
  | Option.none => .absent

/-- The slot read by `body.location?.county`. -/
def locCounty (body : AgentTurnRequest) : StrSlot :=
  match body.location with
  | some l => l.county
  | Option.none => .absent

structure DecisionInput where
  userText : String
  state : Option String
  county : Option String
  weatherSummary : String
  floodSummary : String
  femaSummary : String

structure AgentServices where
  weather : Rat → Rat → Option String
  flood : Option String → Option String
  fema : Option String → Option String → Option String
  generate : DecisionInput → AgentDecision

inductive AgentTurnResponse where
  | badRequest (error : String)
  | missingLocation (d : AgentDecision)
  | success (d : AgentDecision) (call_id : String) (turn_id : Int)
      (weather flood fema : String)
deriving DecidableEq

/-- HTTP status of each response shape (NextResponse.json defaults to
200; only the missing-userText branch passes status 400). -/
def respStatus : AgentTurnResponse → Nat
  | .badRequest _ => 400
  | .missingLocation _ => 200
  | .success _ _ _ _ _ _ => 200

structure ConsultedServices where
  weather : Bool
  flood : Bool
  fema : Bool
deriving DecidableEq

def noServices : ConsultedServices := ⟨false, false, false⟩

def allServices : ConsultedServices := ⟨true, true, true⟩

/-- The exported `POST` handler of the agent-turn route, paired with
the set of context services it consulted; `none` is a thrown
TypeError (the framework then answers 500, not the handler's JSON).
The state and county trims (source lines 194 and 195) run before the
lat/lon finiteness check (line 197), so a bad state or county throws
even when the location is unusable. -/
def postAgentTurn (svc : AgentServices) (mostRecent : Option String)
    (nowMs : Int) (hdr : AgentReqHeaders) (body : AgentTurnRequest) :
    Option (AgentTurnResponse × ConsultedServices) :=
  match body.userText.optChainTrim with
  | Option.none => Option.none
  | some userText =>
    match userText with
    | Option.none =>
      some (.badRequest "Missing userText in request body.", noServices)
    | some u =>
      if u = "" then
        some (.badRequest "Missing userText in request body.", noServices)
      else
        let callId := getCallId body hdr mostRecent nowMs
        let turnId := getTurnId body hdr
        let latN := (locLat body).toFiniteNumber
        let lonN := (locLon body).toFiniteNumber
        match (locState body).optChainTrim with
        | Option.none => Option.none
        | some stTrim =>
          let state := stTrim.map String.toUpper
          match (locCounty body).optChainTrim with
          | Option.none => Option.none
          | some county =>
            match latN, lonN with
            | some lat, some lon =>
              let weatherSummary := (svc.weather lat lon).getD
                "Weather context unavailable at the moment. Use calm, conservative safety guidance."
              let floodSummary := (svc.flood state).getD
                "USGS flood context unavailable."
              let femaSummary := (svc.fema state county).getD
                "FEMA context unavailable."
              let decision := svc.generate
                ⟨u, state, county, weatherSummary, floodSummary, femaSummary⟩
              some (.success decision callId turnId weatherSummary
                floodSummary femaSummary, allServices)
            | _, _ =>
              some (.missingLocation MISSING_LOCATION_DECISION, noServices)

/-- Truth of `!userText` after `body.userText?.trim()`, for bodies
whose userText slot does not make the trim throw. -/
def badUserText (body : AgentTurnRequest) : Bool :=
  match body.userText with
  | .absent => true
  | .nullv => true
  | .str s => jsTrim s = ""
  | .other => false

def c9cexSvc : AgentServices :=
  ⟨fun _ _ => Option.none, fun _ => Option.none, fun _ _ => Option.none,
   fun _ => MISSING_LOCATION_DECISION⟩

def c9cexHdr : AgentReqHeaders := ⟨Option.none, Option.none, .absent⟩

def c9cexBody1 : AgentTurnRequest :=
  ⟨.other, .absent, Option.none, .absent, .absent, .absent, .absent,
   .absent, .absent⟩

def c9cexBody2 : AgentTurnRequest :=
  ⟨.str "help", .absent, some ⟨.absent, .absent, .other, .absent⟩,
   .absent, .absent, .absent, .absent, .absent, .absent⟩

/-- C9 counterexample: a body whose userText is the JSON number 123
makes `body.userText?.trim()` throw a TypeError, so the handler
produces neither a 400 nor a 200 response; and a body with a valid
userText but a numeric location.state throws in `state?.trim()`
before the lat/lon finiteness check, so not even the missing-location
200 is produced. -/
theorem c9_counterexample :
    postAgentTurn c9cexSvc Option.none 1700000000000 c9cexHdr c9cexBody1
      = Option.none ∧
    postAgentTurn c9cexSvc Option.none 1700000000000 c9cexHdr c9cexBody2
      = Option.none :=
  ⟨rfl, rfl⟩

/-- C9 (amended): for every request body whose userText, location
state and location county slots are strings or nullish — any other
JSON value there makes the handler throw on `?.trim()` — the POST
responds 400 exactly when userText is absent, null, or trims to the
empty string; every other such body gets a 200 response, and when the
location lat or lon does not convert to a finite number the response
is the fixed missing-location decision (risk medium, emotion anxious,
action none) and no weather, flood or FEMA service is consulted. -/
theorem c9_amended_agent_turn (svc : AgentServices)
    (mostRecent : Option String) (nowMs : Int) (hdr : AgentReqHeaders)
    (body : AgentTurnRequest)
    (hu : body.userText ≠ StrSlot.other)
    (hs : locState body ≠ StrSlot.other)
    (hc : locCounty body ≠ StrSlot.other) :
    ∃ r, postAgentTurn svc mostRecent nowMs hdr body = some r ∧
      (respStatus r.1 = 400 ↔ badUserText body = true) ∧
      (badUserText body = false → respStatus r.1 = 200) ∧
      (badUserText body = false →
        ((locLat body).toFiniteNumber = Option.none ∨
         (locLon body).toFiniteNumber = Option.none) →
        r = (.missingLocation MISSING_LOCATION_DECISION, noServices)) ∧
      MISSING_LOCATION_DECISION.risk_level = .medium ∧
      MISSING_LOCATION_DECISION.emotion_state = .anxious ∧
      MISSING_LOCATION_DECISION.action.type = .none := by
  have hst : ∃ stv, (locState body).optChainTrim = some stv := by
    cases h : locState body with
    | absent => exact ⟨Option.none, rfl⟩
    | nullv => exact ⟨Option.none, rfl⟩
    | str s => exact ⟨some (jsTrim s), rfl⟩
    | other => exact absurd h hs
  have hcy : ∃ cyv, (locCounty body).optChainTrim = some cyv := by
    cases h : locCounty body with
    | absent => exact ⟨Option.none, rfl⟩
    | nullv => exact ⟨Option.none, rfl⟩
    | str s => exact ⟨some (jsTrim s), rfl⟩
    | other => exact absurd h hc
  obtain ⟨stv, hstv⟩ := hst
  obtain ⟨cyv, hcyv⟩ := hcy
  cases hu2 : body.userText with
  | other => exact absurd hu2 hu
  | absent =>
    refine ⟨(.badRequest "Missing userText in request body.", noServices),
      by unfold postAgentTurn; rw [hu2]; rfl, ?_, ?_, ?_, rfl, rfl, rfl⟩
    · exact iff_of_true rfl (by simp [badUserText, hu2])
    · intro hf
      simp [badUserText, hu2] at hf
    · intro hf _
      simp [badUserText, hu2] at hf
  | nullv =>
    refine ⟨(.badRequest "Missing userText in request body.", noServices),
      by unfold postAgentTurn; rw [hu2]; rfl, ?_, ?_, ?_, rfl, rfl, rfl⟩
    · exact iff_of_true rfl (by simp [badUserText, hu2])
    · intro hf
      simp [badUserText, hu2] at hf
    · intro hf _
      simp [badUserText, hu2] at hf
  | str s =>
    by_cases h0 : jsTrim s = ""
    · refine ⟨(.badRequest "Missing userText in request body.", noServices),
        by unfold postAgentTurn; rw [hu2]; simp only [hstv, hcyv]; simp only [StrSlot.optChainTrim]; rw [if_pos h0],
        ?_, ?_, ?_, rfl, rfl, rfl⟩
      · exact iff_of_true rfl (by simp [badUserText, hu2, h0])
      · intro hf
        simp [badUserText, hu2, h0] at hf
      · intro hf _
        simp [badUserText, hu2, h0] at hf
    · have hbf : badUserText body = false := by
        simp [badUserText, hu2, h0]
      rcases hlt : (locLat body).toFiniteNumber with _ | lat
      · refine ⟨(.missingLocation MISSING_LOCATION_DECISION, noServices),
          ?_, ?_, ?_, ?_, rfl, rfl, rfl⟩
        · unfold postAgentTurn
          rw [hu2]
          simp only [hstv, hcyv]
          simp only [StrSlot.optChainTrim]
          rw [if_neg h0, hlt]
        · rw [hbf]
          exact iff_of_false (by decide) (by simp)
        · intro _
          rfl
        · intro _ _
          rfl
      · rcases hln : (locLon body).toFiniteNumber with _ | lon
        · refine ⟨(.missingLocation MISSING_LOCATION_DECISION, noServices),
            ?_, ?_, ?_, ?_, rfl, rfl, rfl⟩
          · unfold postAgentTurn
            rw [hu2]
            simp only [hstv, hcyv]
            simp only [StrSlot.optChainTrim]
            rw [if_neg h0, hlt, hln]
          · rw [hbf]
            exact iff_of_false (by decide) (by simp)
          · intro _
            rfl
          · intro _ _
            rfl
        · have hpost : postAgentTurn svc mostRecent nowMs hdr body =
              some (.success (svc.generate ⟨jsTrim s,
                  stv.map String.toUpper, cyv,
                  (svc.weather lat lon).getD
                    "Weather context unavailable at the moment. Use calm, conservative safety guidance.",
                  (svc.flood (stv.map String.toUpper)).getD
                    "USGS flood context unavailable.",
                  (svc.fema (stv.map String.toUpper) cyv).getD
                    "FEMA context unavailable."⟩)
                (getCallId body hdr mostRecent nowMs) (getTurnId body hdr)
                ((svc.weather lat lon).getD
                  "Weather context unavailable at the moment. Use calm, conservative safety guidance.")
                ((svc.flood (stv.map String.toUpper)).getD
                  "USGS flood context unavailable.")
                ((svc.fema (stv.map String.toUpper) cyv).getD
                  "FEMA context unavailable."), allServices) := by
            unfold postAgentTurn
            rw [hu2]
            simp only [hstv, hcyv]
            simp only [StrSlot.optChainTrim]
            rw [if_neg h0, hlt, hln]
          refine ⟨_, hpost, ?_, ?_, ?_, rfl, rfl, rfl⟩
          · rw [hbf]
            exact iff_of_false (by simp [respStatus]) (by simp)
          · intro _
            rfl
          · intro _ hmm
            rcases hmm with h | h
            · exact Option.noConfusion h
            · exact Option.noConfusion h

def c9wsvc : AgentServices :=
  ⟨fun _ _ => Option.none, fun _ => Option.none, fun _ _ => Option.none,
   fun _ => MISSING_LOCATION_DECISION⟩

def c9whdr : AgentReqHeaders := ⟨Option.none, Option.none, .absent⟩

def c9wbody : AgentTurnRequest :=
  ⟨.str "help me", .absent, Option.none, .absent, .absent, .absent,
   .absent, .absent, .absent⟩

/-- Witness for the amended C9: a body with a string userText and no
location satisfies the slot hypotheses and gets the missing-location
200 response. -/
theorem c9_amended_witness :
    ∃ r, postAgentTurn c9wsvc Option.none 1700000000000 c9whdr c9wbody
        = some r ∧
      (respStatus r.1 = 400 ↔ badUserText c9wbody = true) ∧
      (badUserText c9wbody = false → respStatus r.1 = 200) ∧
      (badUserText c9wbody = false →
        ((locLat c9wbody).toFiniteNumber = Option.none ∨
         (locLon c9wbody).toFiniteNumber = Option.none) →
        r = (.missingLocation MISSING_LOCATION_DECISION, noServices)) ∧
      MISSING_LOCATION_DECISION.risk_level = .medium ∧
      MISSING_LOCATION_DECISION.emotion_state = .anxious ∧
      MISSING_LOCATION_DECISION.action.type = .none :=
  c9_amended_agent_turn c9wsvc Option.none 1700000000000 c9whdr c9wbody
    (by decide) (by decide) (by decide)

/-! ## The promotion gate (C2)

Modelled from the spec: the Python autotune promotion gate
(spec sections 4.7 and 8) is not under src/; the definitions below
follow the spec text.  A candidate wins on the test split only if its
primary metric beats the baseline by at least MIN_DELTA_PRIMARY and
its secondary metric is not worse than the baseline by more than
MAX_REGRESSION_SECONDARY; the winner must pass the same gate on the
train split with MIN_DELTA_PRIMARY_TRAIN, and promotion additionally
requires the publish step to succeed. -/

/-- Modelled from the spec: the promotion thresholds
(`AUTOTUNE_MIN_DELTA_PRIMARY`, `AUTOTUNE_MAX_REGRESSION_SECONDARY`,
and the possibly looser train threshold of section 4.7 step 2). -/
structure GateConfig where
  MIN_DELTA_PRIMARY : Rat
  MAX_REGRESSION_SECONDARY : Rat
  MIN_DELTA_PRIMARY_TRAIN : Rat

/-- Modelled from the spec: the primary and secondary aggregate
metrics of one VariantRun on one split. -/
structure SplitMetrics where
  primary : Rat
  secondary : Rat

/-- Modelled from the spec: the win condition of section 4.7 step 1,
with the threshold on the primary delta passed in (step 2 uses the
looser train threshold). -/
def splitWins (minDelta maxRegressionSecondary : Rat)
    (baseline candidate : SplitMetrics) : Bool :=
  (minDelta ≤ candidate.primary - baseline.primary) &&
  (baseline.secondary - candidate.secondary ≤ maxRegressionSecondary)

/-- Modelled from the spec: the recorded promotion decision with the
deltas that justify it (section 4.7 step 4). -/
structure GateDecision where
  promoted : Bool
  test_delta_primary : Rat
  test_delta_secondary : Rat
  train_delta_primary : Rat
  train_delta_secondary : Rat

/-- Modelled from the spec: the decision procedure of section 4.7 —
promote only if the candidate wins on the test split, still wins on
the train split, and the publish step succeeds (a publish failure
records promoted = false). -/
def decidePromotion (cfg : GateConfig)
    (baseTest candTest baseTrain candTrain : SplitMetrics)
    (publishOk : Bool) : GateDecision :=
  let testWin := splitWins cfg.MIN_DELTA_PRIMARY cfg.MAX_REGRESSION_SECONDARY
    baseTest candTest
  let trainWin := splitWins cfg.MIN_DELTA_PRIMARY_TRAIN
    cfg.MAX_REGRESSION_SECONDARY baseTrain candTrain
  { promoted := testWin && trainWin && publishOk,
    test_delta_primary := candTest.primary - baseTest.primary,
    test_delta_secondary := candTest.secondary - baseTest.secondary,
    train_delta_primary := candTrain.primary - baseTrain.primary,
    train_delta_secondary := candTrain.secondary - baseTrain.secondary }

/-- C2: every promoted run satisfies the three threshold conditions —
the test primary delta is at least MIN_DELTA_PRIMARY, the test
secondary delta is at least minus MAX_REGRESSION_SECONDARY, and the
train primary delta is at least MIN_DELTA_PRIMARY_TRAIN; no run
failing any of them is promoted. -/
theorem c2_promotion_thresholds (cfg : GateConfig)
    (baseTest candTest baseTrain candTrain : SplitMetrics)
    (publishOk : Bool)
    (h : (decidePromotion cfg baseTest candTest baseTrain candTrain
      publishOk).promoted = true) :
    cfg.MIN_DELTA_PRIMARY ≤ (decidePromotion cfg baseTest candTest baseTrain
      candTrain publishOk).test_delta_primary ∧
    -cfg.MAX_REGRESSION_SECONDARY ≤ (decidePromotion cfg baseTest candTest
      baseTrain candTrain publishOk).test_delta_secondary ∧
    cfg.MIN_DELTA_PRIMARY_TRAIN ≤ (decidePromotion cfg baseTest candTest
      baseTrain candTrain publishOk).train_delta_primary := by
  unfold decidePromotion splitWins at h ⊢
  dsimp only at h ⊢
  simp only [Bool.and_eq_true, decide_eq_true_eq] at h
  obtain ⟨⟨⟨h1, h2⟩, ⟨h3, _h4⟩⟩, _h5⟩ := h
  exact ⟨h1, by linarith, h3⟩

/-- Witness for C2: the clear-win scenario of spec section 8
(baseline 0.20/0.40, candidate 0.55/0.50 on test and 0.52/0.48 on
train, thresholds 0.10 and 0.05). -/
theorem c2_witness :
    (decidePromotion ⟨1/10, 1/20, 1/10⟩ ⟨1/5, 2/5⟩ ⟨11/20, 1/2⟩
      ⟨1/5, 2/5⟩ ⟨13/25, 12/25⟩ true).promoted = true ∧
    ((1 : Rat)/10 ≤ (decidePromotion ⟨1/10, 1/20, 1/10⟩ ⟨1/5, 2/5⟩
      ⟨11/20, 1/2⟩ ⟨1/5, 2/5⟩ ⟨13/25, 12/25⟩ true).test_delta_primary ∧
     -((1 : Rat)/20) ≤ (decidePromotion ⟨1/10, 1/20, 1/10⟩ ⟨1/5, 2/5⟩
      ⟨11/20, 1/2⟩ ⟨1/5, 2/5⟩ ⟨13/25, 12/25⟩ true).test_delta_secondary ∧
     (1 : Rat)/10 ≤ (decidePromotion ⟨1/10, 1/20, 1/10⟩ ⟨1/5, 2/5⟩
      ⟨11/20, 1/2⟩ ⟨1/5, 2/5⟩ ⟨13/25, 12/25⟩ true).train_delta_primary) :=
  ⟨by
    simp only [decidePromotion, splitWins, Bool.and_eq_true, decide_eq_true_eq]
    norm_num,
   c2_promotion_thresholds ⟨1/10, 1/20, 1/10⟩ ⟨1/5, 2/5⟩ ⟨11/20, 1/2⟩
     ⟨1/5, 2/5⟩ ⟨13/25, 12/25⟩ true (by
    simp only [decidePromotion, splitWins, Bool.and_eq_true, decide_eq_true_eq]
    norm_num)⟩
